import Mathlib

/-!
Verification development for the T2 prostate reconstruction pipeline
(`myrecon/myrecon.py`).

Arrays are shallowly embedded as a shape record together with a total
indexing function; numpy's dynamic failures (index errors, broadcast
mismatches on assignment) are made explicit through an error type, and
the pipeline is written in an error-plus-trace monad so that the order
of external-engine calls is visible to theorems.

External collaborators that live outside this repository's source
(`ifftnd`, `zero_pad_kspace_hdr`, `center_crop_im`, the `Grappa`
engine) are modelled from the specification's description of their
contracts; everything else is translated from `myrecon.py`.
-/

/-- A real 2-dimensional array: shape plus total indexing function. -/
structure Arr2R where
  d0 : Nat
  d1 : Nat
  data : Nat → Nat → ℝ

/-- A real 3-dimensional array. -/
structure Arr3R where
  d0 : Nat
  d1 : Nat
  d2 : Nat
  data : Nat → Nat → Nat → ℝ

/-- A real 4-dimensional array. -/
structure Arr4R where
  d0 : Nat
  d1 : Nat
  d2 : Nat
  d3 : Nat
  data : Nat → Nat → Nat → Nat → ℝ

/-- A complex 3-dimensional array. -/
structure Arr3C where
  d0 : Nat
  d1 : Nat
  d2 : Nat
  data : Nat → Nat → Nat → ℂ

/-- A complex 4-dimensional array. -/
structure Arr4C where
  d0 : Nat
  d1 : Nat
  d2 : Nat
  d3 : Nat
  data : Nat → Nat → Nat → Nat → ℂ

/-- A complex 5-dimensional array (average, slice, coil, readout, phase-encode). -/
structure Arr5C where
  d0 : Nat
  d1 : Nat
  d2 : Nat
  d3 : Nat
  d4 : Nat
  data : Nat → Nat → Nat → Nat → Nat → ℂ

/-- Errors that the pipeline (or the numpy runtime underneath it) can
surface.  `inputShape` is the spec's `InputShapeError`; the reference
code itself never raises it, but the constructor is needed to state
the spec's claims about it. -/
inductive RErr where
  | inputShape
  | headerParse
  | calibrationInsufficient
  | geometryMismatch
  | cropSize
  | indexError
  | valueError
  | keyError
deriving DecidableEq, Repr

/-- Events recorded while the pipeline runs: engine construction,
weight computation and weight application.  Engine / weight-dictionary
identifiers: 1 for `grappa_obj` / `grappa_weight_dict` (built from
average 0), 2 for `grappa_obj_2` / `grappa_weight_dict_2` (built from
average 1). -/
inductive Ev where
  | initEngine (eng : Nat)
  | computeW (eng : Nat) (slice : Nat)
  | applyW (eng : Nat) (dict : Nat) (avg : Nat) (slice : Nat)
deriving DecidableEq, Repr

/-- Whether an event is a weight application. -/
def Ev.isApply : Ev → Bool
  | .applyW _ _ _ _ => true
  | _ => false

/-- Whether an event is a weight computation. -/
def Ev.isCompute : Ev → Bool
  | .computeW _ _ => true
  | _ => false

/-- The result `dict` returned by `t2_reconstruction`: a single dataset
named `reconstruction_rss`. -/
structure ImgDict where
  reconstruction_rss : Arr3R

/-- np.transpose(x, (2, 0, 1)) on a 3-dimensional array. -/
noncomputable def transpose201 (a : Arr3C) : Arr3C :=
  ⟨a.d2, a.d0, a.d1, fun i j k => a.data j k i⟩

/-- np.moveaxis(np.moveaxis(x, 0, 1), 1, 2): the inverse permutation of
`transpose201`, used to write the engine output back into the k-space
layout (coil, readout, phase-encode). -/
noncomputable def moveaxisBack (a : Arr3C) : Arr3C :=
  ⟨a.d1, a.d2, a.d0, fun c r p => a.data p c r⟩

/-- Modelled from the spec: the low-level `ifftnd` routine (from
`fastmri_prostate.reconstruction.utils`, not part of this repository's
source) at the call pattern `ifftnd(data_sl, [1, 2])` — an inverse
2-dimensional discrete frequency transform applied along axes 1 and 2
(the two spatial axes) independently for every coil. -/
noncomputable def ifftnd (a : Arr3C) : Arr3C :=
  ⟨a.d0, a.d1, a.d2, fun c r p =>
    (1 / ((a.d1 : ℂ) * (a.d2 : ℂ))) *
      ∑ k ∈ Finset.range a.d1, ∑ l ∈ Finset.range a.d2,
        a.data c k l *
          Complex.exp (2 * Real.pi * Complex.I *
            ((r : ℂ) * k / a.d1 + (p : ℂ) * l / a.d2))⟩

/-- Root sum-of-squares of a complex signal: np.sqrt(np.sum(abs(sig)**2, axis)),
at the call pattern used in `create_coil_combined_im` (axis 0, the coil
axis, of a 3-dimensional (coil, readout, phase-encode) array). -/
noncomputable def rss (sig : Arr3C) : Arr2R :=
  ⟨sig.d1, sig.d2, fun r p =>
    Real.sqrt (∑ c ∈ Finset.range sig.d0, Complex.abs (sig.data c r p) ^ 2)⟩

/-- np.flipud: reverse the rows (axis 0) of a 2-dimensional image. -/
noncomputable def flipud (im : Arr2R) : Arr2R :=
  ⟨im.d0, im.d1, fun r p => im.data (im.d0 - 1 - r) p⟩

/-- Slice `k[i, :, :, :]` of a 4-dimensional (slice, coil, readout,
phase-encode) array. -/
noncomputable def slice4 (k : Arr4C) (i : Nat) : Arr3C :=
  ⟨k.d1, k.d2, k.d3, fun c r p => k.data i c r p⟩

/-- create_coil_combined_im: for each slice, inverse-transform every
coil along the two spatial axes, combine coils by root sum-of-squares,
and flip the result vertically into a real (slices, x, y) buffer of
shape (k.shape[0], k.shape[2], k.shape[3]). -/
noncomputable def create_coil_combined_im (k : Arr4C) : Arr3R :=
  ⟨k.d0, k.d2, k.d3, fun i r p =>
    (flipud (rss (ifftnd (slice4 k i)))).data r p⟩

/-- Elementwise arithmetic mean over axis 0: np.mean(im, axis=0) on a
4-dimensional real array. -/
noncomputable def meanAxis0 (a : Arr4R) : Arr3R :=
  ⟨a.d1, a.d2, a.d3, fun s r c =>
    (∑ v ∈ Finset.range a.d0, a.data v s r c) / (a.d0 : ℝ)⟩

/-- Acquisition header metadata, reduced to what the padding routine
consumes: the encoded matrix size along readout and phase-encode. -/
structure Hdr where
  encoded_ro : Nat
  encoded_pe : Nat

/-- Modelled from the spec: `zero_pad_kspace_hdr` (from
`fastmri_prostate.data.mri_data`, not part of this repository's
source).  It computes the target full encoded matrix size from the
header and zero-fills the last two axes symmetrically so the acquired
region stays centered, failing with a header-parse error when the
target is smaller than the acquired extent. -/
noncomputable def zero_pad_kspace_hdr (hdr : Hdr) (k : Arr4C) : Except RErr Arr4C :=
  if k.d2 ≤ hdr.encoded_ro ∧ k.d3 ≤ hdr.encoded_pe then
    Except.ok ⟨k.d0, k.d1, hdr.encoded_ro, hdr.encoded_pe, fun s c r p =>
      let offR := (hdr.encoded_ro - k.d2) / 2
      let offP := (hdr.encoded_pe - k.d3) / 2
      if offR ≤ r ∧ r < offR + k.d2 ∧ offP ≤ p ∧ p < offP + k.d3 then
        k.data s c (r - offR) (p - offP)
      else 0⟩
  else Except.error RErr.headerParse

/-- Modelled from the spec: `center_crop_im` (from
`fastmri_prostate.reconstruction.utils`, not part of this repository's
source).  It extracts a centered target-sized region from the last two
axes, with the leading margin equal to the floor of half the excess,
failing when an input dimension is smaller than its target. -/
noncomputable def center_crop_im (im : Arr3R) (th tw : Nat) : Except RErr Arr3R :=
  if th ≤ im.d1 ∧ tw ≤ im.d2 then
    Except.ok ⟨im.d0, th, tw, fun s r c =>
      im.data s (r + (im.d1 - th) / 2) (c + (im.d2 - tw) / 2)⟩
  else Except.error RErr.cropSize

/-- Contract of one `Grappa` engine instance (external capability,
§4.2 of the spec): compute kernel weights from calibration data, and
apply weights to undersampled k-space.  Both operations may fail, and
`W` is the opaque weight-set type. -/
structure Engine (W : Type) where
  compute_weights : Arr3C → Except RErr W
  apply_weights : Arr3C → W → Except RErr Arr3C

/-- Constructor of `Grappa` engine instances: `Grappa(ref_kspace,
kernel_size=(5, 5), coil_axis=1)`.  The kernel size and coil axis are
fixed at the call sites and are absorbed into the factory. -/
structure GrappaFactory (W : Type) where
  make : Arr3C → Engine W

/-- Pipeline computations: an event trace together with an
error-or-value result. -/
def M (α : Type) : Type := List Ev × Except RErr α

/-- Return for `M`. -/
def mret {α : Type} (a : α) : M α := ([], Except.ok a)

/-- Sequencing for `M`: an error short-circuits, traces accumulate in
order. -/
def mbind {α β : Type} (x : M α) (f : α → M β) : M β :=
  match x with
  | (t, Except.error e) => (t, Except.error e)
  | (t, Except.ok a) => (t ++ (f a).1, (f a).2)

/-- Lift an eventless error-or-value computation into `M`. -/
def liftE {α : Type} (x : Except RErr α) : M α := ([], x)

/-- Record one event. -/
def emitEv (e : Ev) : M Unit := ([e], Except.ok ())

theorem mbind_ok {α β : Type} (t : List Ev) (a : α) (f : α → M β) :
    mbind (t, Except.ok a) f = (t ++ (f a).1, (f a).2) := rfl

theorem mbind_err {α β : Type} (t : List Ev) (e : RErr) (f : α → M β) :
    mbind ((t, Except.error e) : M α) f = (t, Except.error e) := rfl

/-- Read `kspace_data[a, s, ...]`, with numpy's bounds check on the
two indexed axes. -/
noncomputable def readKSlice (k : Arr5C) (a s : Nat) : Except RErr Arr3C :=
  if a < k.d0 ∧ s < k.d1 then
    Except.ok ⟨k.d2, k.d3, k.d4, fun c r p => k.data a s c r p⟩
  else Except.error RErr.indexError

/-- Read `calib_data[s, ...]`, with numpy's bounds check. -/
noncomputable def readCalibSlice (c : Arr4C) (s : Nat) : Except RErr Arr3C :=
  if s < c.d0 then
    Except.ok ⟨c.d1, c.d2, c.d3, fun i j l => c.data s i j l⟩
  else Except.error RErr.indexError

/-- Read `kspace_post_grappa_all[a, ...]`, with numpy's bounds check. -/
noncomputable def readPostAvg (k : Arr5C) (a : Nat) : Except RErr Arr4C :=
  if a < k.d0 then
    Except.ok ⟨k.d1, k.d2, k.d3, k.d4, fun s c r p => k.data a s c r p⟩
  else Except.error RErr.indexError

/-- Write `kspace_post_grappa_all[a, s, ...] = v`: bounds check on the
indexed axes, then numpy's broadcast check that the value's shape
matches the target region. -/
noncomputable def writePost (post : Arr5C) (a s : Nat) (v : Arr3C) : Except RErr Arr5C :=
  if a < post.d0 ∧ s < post.d1 then
    if v.d0 = post.d2 ∧ v.d1 = post.d3 ∧ v.d2 = post.d4 then
      Except.ok ⟨post.d0, post.d1, post.d2, post.d3, post.d4,
        fun a' s' c r p =>
          if a' = a ∧ s' = s then v.data c r p else post.data a' s' c r p⟩
    else Except.error RErr.valueError
  else Except.error RErr.indexError

/-- Index of the source array along one axis when broadcasting it over
a destination axis: a size-1 source axis is repeated. -/
def broadcastIdx (n i : Nat) : Nat := if n = 1 then 0 else i

/-- Write `im[a] = v`: bounds check on the indexed axis, then numpy's
broadcast rule for assignment — along each axis the value's extent
must equal the target region's extent or be 1, and size-1 axes of the
value are repeated across the region. -/
noncomputable def writeIm (im : Arr4R) (a : Nat) (v : Arr3R) : Except RErr Arr4R :=
  if a < im.d0 then
    if (v.d0 = im.d1 ∨ v.d0 = 1) ∧ (v.d1 = im.d2 ∨ v.d1 = 1) ∧ (v.d2 = im.d3 ∨ v.d2 = 1) then
      Except.ok ⟨im.d0, im.d1, im.d2, im.d3,
        fun a' s r c => if a' = a then
          v.data (broadcastIdx v.d0 s) (broadcastIdx v.d1 r) (broadcastIdx v.d2 c)
        else im.data a' s r c⟩
    else Except.error RErr.valueError
  else Except.error RErr.indexError

theorem writeIm_ok (im : Arr4R) (a : Nat) (v : Arr3R) (hb : a < im.d0)
    (h1 : v.d0 = im.d1) (h2 : v.d1 = im.d2) (h3 : v.d2 = im.d3) :
    writeIm im a v = Except.ok ⟨im.d0, im.d1, im.d2, im.d3,
      fun a' s r c => if a' = a then
        v.data (broadcastIdx v.d0 s) (broadcastIdx v.d1 r) (broadcastIdx v.d2 c)
      else im.data a' s r c⟩ := by
  unfold writeIm
  rw [if_pos hb, if_pos ⟨Or.inl h1, Or.inl h2, Or.inl h3⟩]

/-- A weight dictionary keyed by slice index. -/
def WDict (W : Type) : Type := Nat → Option W

/-- Store a weight set under a slice key. -/
def dictSet {W : Type} (d : WDict W) (s : Nat) (w : W) : WDict W :=
  fun k => if k = s then some w else d k

/-- Look a slice key up, raising `KeyError` when absent. -/
def dictGet {W : Type} (d : WDict W) (s : Nat) : Except RErr W :=
  match d s with
  | some w => Except.ok w
  | none => Except.error RErr.keyError

/-- Weight-computation loop (lines 118–125 of `myrecon.py`): for each
slice in order, read the calibration slice and compute one weight set
through each engine, filling the two dictionaries. -/
noncomputable def computeLoop {W : Type} (eA eB : Engine W) (calib : Arr4C) :
    Nat → M (WDict W × WDict W)
  | 0 => mret (fun _ => none, fun _ => none)
  | n + 1 =>
    mbind (computeLoop eA eB calib n) fun dicts =>
    mbind (liftE (readCalibSlice calib n)) fun cal =>
    mbind (emitEv (Ev.computeW 1 n)) fun _ =>
    mbind (liftE (eA.compute_weights (transpose201 cal))) fun wA =>
    mbind (emitEv (Ev.computeW 2 n)) fun _ =>
    mbind (liftE (eB.compute_weights (transpose201 cal))) fun wB =>
    mret (dictSet dicts.1 n wA, dictSet dicts.2 n wB)

/-- One row of the weight-application iteration: an average index, an
engine tagged with its identifier, and a weight dictionary tagged with
its identifier. -/
def ApplyRow (W : Type) : Type := Nat × (Nat × Engine W) × (Nat × WDict W)

/-- The zip driving the weight-application loop (lines 130–134 of
`myrecon.py`).  As in the source, the three lists are built from the
values the names `grappa_obj` and `grappa_weight_dict` hold when the
loop starts, so the rebinding of those names during iteration cannot
change later rows: average 2 receives the first engine and the first
dictionary. -/
def applyRows {W : Type} (engA engB : Nat × Engine W) (dA dB : Nat × WDict W) :
    List (ApplyRow W) :=
  List.zip [0, 1, 2] (List.zip [engA, engB, engA] [dA, dB, dA])

/-- Inner weight-application loop over slices (lines 135–141 of
`myrecon.py`) for one average: read the slice, look its weights up,
apply them through the engine, and write the completed slice back. -/
noncomputable def applySlicesLoop {W : Type} (ks : Arr5C) (eng : Nat × Engine W)
    (dict : Nat × WDict W) (avg : Nat) : Nat → Arr5C → M Arr5C
  | 0, post => mret post
  | n + 1, post =>
    mbind (applySlicesLoop ks eng dict avg n post) fun post1 =>
    mbind (liftE (readKSlice ks avg n)) fun sl =>
    mbind (liftE (dictGet dict.2 n)) fun w =>
    mbind (emitEv (Ev.applyW eng.1 dict.1 avg n)) fun _ =>
    mbind (liftE (eng.2.apply_weights (transpose201 sl) w)) fun res =>
    liftE (writePost post1 avg n (moveaxisBack res))

/-- Outer weight-application loop over the zipped rows. -/
noncomputable def applyLoop {W : Type} (ks : Arr5C) :
    List (ApplyRow W) → Arr5C → M Arr5C
  | [], post => mret post
  | row :: rest, post =>
    mbind (applySlicesLoop ks row.2.1 row.2.2 row.1 ks.d1 post) fun post1 =>
    applyLoop ks rest post1

/-- Per-average reconstruction loop (lines 144–148 of `myrecon.py`):
read each average's completed k-space, zero-pad it from the header,
coil-combine it, and write it into the `im` buffer. -/
noncomputable def reconLoop (hdr : Hdr) (post : Arr5C) :
    Nat → Arr4R → Except RErr Arr4R
  | 0, im => Except.ok im
  | n + 1, im => do
    let im1 ← reconLoop hdr post n im
    let kg ← readPostAvg post n
    let padded ← zero_pad_kspace_hdr hdr kg
    writeIm im1 n (create_coil_combined_im padded)

/-- Initialization and calibration phase of `t2_reconstruction` (lines
105–125 of `myrecon.py`): build the two engines from average 0's and
average 1's first-slice k-space, then fill both weight dictionaries
for every slice. -/
noncomputable def t2_reconstruction_pre {W : Type} (G : GrappaFactory W)
    (kspace_data : Arr5C) (calib_data : Arr4C) :
    M ((Nat × Engine W) × (Nat × Engine W) × (WDict W × WDict W)) :=
  mbind (liftE (readKSlice kspace_data 0 0)) fun ks00 =>
  mbind (emitEv (Ev.initEngine 1)) fun _ =>
  mbind (mret (G.make (transpose201 ks00))) fun engA =>
  mbind (liftE (readKSlice kspace_data 1 0)) fun ks10 =>
  mbind (emitEv (Ev.initEngine 2)) fun _ =>
  mbind (mret (G.make (transpose201 ks10))) fun engB =>
  mbind (computeLoop engA engB calib_data kspace_data.d1) fun dicts =>
  mret ((1, engA), (2, engB), dicts)

/-- The `kspace_post_grappa_all = np.zeros(kspace_data.shape)` buffer. -/
noncomputable def zerosLike5 (k : Arr5C) : Arr5C :=
  ⟨k.d0, k.d1, k.d2, k.d3, k.d4, fun _ _ _ _ _ => 0⟩

/-- The `im = np.zeros((num_avg, num_slices, num_ro, num_ro))` buffer:
both spatial dimensions are the readout length. -/
noncomputable def imBuffer (k : Arr5C) : Arr4R :=
  ⟨k.d0, k.d1, k.d3, k.d3, fun _ _ _ _ => 0⟩

/-- t2_reconstruction (lines 87–157 of `myrecon.py`): GRAPPA T2
reconstruction.  Returns the event trace together with the result, a
dictionary holding the single dataset `reconstruction_rss`. -/
noncomputable def t2_reconstruction {W : Type} (G : GrappaFactory W)
    (kspace_data : Arr5C) (calib_data : Arr4C) (hdr : Hdr) : M ImgDict :=
  mbind (t2_reconstruction_pre G kspace_data calib_data) fun pre =>
  mbind (applyLoop kspace_data
      (applyRows pre.1 pre.2.1 (pre.1.1, pre.2.2.1) (pre.2.1.1, pre.2.2.2))
      (zerosLike5 kspace_data)) fun post =>
  mbind (liftE (reconLoop hdr post kspace_data.d0 (imBuffer kspace_data))) fun im =>
  mbind (mret (meanAxis0 im)) fun im3 =>
  mbind (liftE (center_crop_im im3 320 320)) fun cropped =>
  mret ⟨cropped⟩

/-- An all-zero k-space volume of the given shape. -/
noncomputable def zeroKS (na ns nc nro npe : Nat) : Arr5C :=
  ⟨na, ns, nc, nro, npe, fun _ _ _ _ _ => 0⟩

/-- An all-zero calibration volume of the given shape. -/
noncomputable def zeroCalib (ns nc nro npc : Nat) : Arr4C :=
  ⟨ns, nc, nro, npc, fun _ _ _ _ => 0⟩

/-- The identity engine: weight computation always succeeds (with a
trivial weight set) and weight application returns its input
unchanged. -/
noncomputable def idEngine : Engine Unit :=
  ⟨fun _ => Except.ok (), fun ks _ => Except.ok ks⟩

/-- A factory producing the identity engine for every reference. -/
noncomputable def idFactory : GrappaFactory Unit :=
  ⟨fun _ => idEngine⟩

/-- An engine whose weight computation always reports insufficient
calibration data. -/
noncomputable def failEngine : Engine Unit :=
  ⟨fun _ => Except.error RErr.calibrationInsufficient, fun ks _ => Except.ok ks⟩

/-- A factory producing the always-failing engine. -/
noncomputable def failFactory : GrappaFactory Unit :=
  ⟨fun _ => failEngine⟩

/-- Claim C4: for every multicoil multislice k-space input,
`create_coil_combined_im` produces, for each slice in slice order, a
real-valued 2-dimensional image equal to the inverse 2-dimensional
frequency transform along the two spatial axes of every coil, followed
by root-sum-of-squares across the coil axis (the square root of the
sum over coils of the squared magnitude), followed by a vertical
flip. -/
theorem claim_C4_coil_combined (k : Arr4C) (i r p : Nat) :
    (create_coil_combined_im k).d0 = k.d0 ∧
    (create_coil_combined_im k).d1 = k.d2 ∧
    (create_coil_combined_im k).d2 = k.d3 ∧
    (create_coil_combined_im k).data i r p =
      Real.sqrt (∑ c ∈ Finset.range k.d1,
        Complex.abs ((ifftnd (slice4 k i)).data c (k.d2 - 1 - r) p) ^ 2) :=
  ⟨rfl, rfl, rfl, rfl⟩

/-- Claim C5: for every complex signal whose coil axis has length 1,
root-sum-of-squares combination along that axis equals the elementwise
absolute value of the signal with the singleton axis removed. -/
theorem claim_C5_rss_single_coil (h w : Nat) (f : Nat → Nat → Nat → ℂ) (r p : Nat) :
    (rss ⟨1, h, w, f⟩).data r p = Complex.abs (f 0 r p) := by
  simp only [rss, Finset.sum_range_one]
  exact Real.sqrt_sq (Complex.abs.nonneg _)

/-- Selection of one of three image stacks by a `Fin 3` index. -/
def pick3 {T : Type} (A B C : T) : Fin 3 → T :=
  fun i => if i.val = 0 then A else if i.val = 1 then B else C

/-- Three per-average image stacks of identical shape, stacked along a
new leading average axis (the layout of the `im` buffer with three
averages). -/
noncomputable def stack3 (A B C : Nat → Nat → Nat → ℝ) (ns h w : Nat) : Arr4R :=
  ⟨3, ns, h, w, fun a s r c =>
    if a = 0 then A s r c else if a = 1 then B s r c else C s r c⟩

/-- Claim C6: for every three per-average image stacks of identical
shape, the cross-average reduction of step 7 (`np.mean` over the
average axis, as used on line 150) yields the same result under any
permutation of the three stacks. -/
theorem claim_C6_mean_permutation (A B C : Nat → Nat → Nat → ℝ) (ns h w : Nat)
    (σ : Equiv.Perm (Fin 3)) (s r c : Nat) :
    (meanAxis0 (stack3 (pick3 A B C (σ 0)) (pick3 A B C (σ 1)) (pick3 A B C (σ 2))
        ns h w)).data s r c
      = (meanAxis0 (stack3 A B C ns h w)).data s r c := by
  have key : ∀ g : Fin 3 → ℝ, g (σ 0) + g (σ 1) + g (σ 2) = g 0 + g 1 + g 2 := by
    intro g
    have h1 : ∑ i : Fin 3, g (σ i) = ∑ i : Fin 3, g i := Equiv.sum_comp σ g
    simpa [Fin.sum_univ_three] using h1
  have e1 := key (fun i => pick3 A B C i s r c)
  simp only [pick3] at e1
  norm_num at e1
  simp only [meanAxis0, stack3, Finset.sum_range_succ, Finset.sum_range_one]
  norm_num
  simp only [pick3]
  rw [e1]

theorem mem_mbind {α β : Type} {e : Ev} (x : M α) (f : α → M β)
    (h : e ∈ (mbind x f).1) :
    e ∈ x.1 ∨ ∃ a, x.2 = Except.ok a ∧ e ∈ (f a).1 := by
  obtain ⟨t, r⟩ := x
  cases r with
  | error er => exact Or.inl h
  | ok a =>
    rw [mbind_ok] at h
    rcases List.mem_append.mp h with h1 | h2
    · exact Or.inl h1
    · exact Or.inr ⟨a, rfl, h2⟩

theorem mbind_result {α β : Type} (x : M α) (f : α → M β) :
    (∃ e, x.2 = Except.error e ∧ (mbind x f).2 = Except.error e) ∨
    (∃ a, x.2 = Except.ok a ∧ (mbind x f).2 = (f a).2) := by
  obtain ⟨t, r⟩ := x
  cases r with
  | error er => exact Or.inl ⟨er, rfl, rfl⟩
  | ok a => exact Or.inr ⟨a, rfl, rfl⟩

theorem mem_liftE {α : Type} {e : Ev} (x : Except RErr α) :
    e ∈ (liftE x).1 → False := by
  intro h
  simp [liftE] at h

/-- Success of the weight-computation loop: when the calibration
volume covers the processed slices and both engines' weight
computations succeed, the loop succeeds, both dictionaries cover every
processed slice, and the trace consists of computation events only. -/
theorem computeLoop_ok {W : Type} (eA eB : Engine W) (calib : Arr4C) (n : Nat)
    (hcal : n ≤ calib.d0)
    (hA : ∀ c, ∃ w, eA.compute_weights c = Except.ok w)
    (hB : ∀ c, ∃ w, eB.compute_weights c = Except.ok w) :
    ∃ tr dA dB, computeLoop eA eB calib n = (tr, Except.ok (dA, dB))
      ∧ (∀ s, s < n → (dA s).isSome ∧ (dB s).isSome)
      ∧ (∀ e ∈ tr, e.isApply = false) := by
  induction n with
  | zero =>
    refine ⟨[], fun _ => none, fun _ => none, rfl, ?_, ?_⟩
    · intro s hs; exact absurd hs (Nat.not_lt_zero s)
    · intro e he; exact absurd he (List.not_mem_nil e)
  | succ n ih =>
    obtain ⟨tr, dA, dB, heq, hcov, htr⟩ := ih (Nat.le_of_succ_le hcal)
    have hread : readCalibSlice calib n =
        Except.ok ⟨calib.d1, calib.d2, calib.d3, fun i j l => calib.data n i j l⟩ := by
      simp [readCalibSlice, Nat.lt_of_succ_le hcal]
    obtain ⟨wA, hwA⟩ := hA (transpose201 ⟨calib.d1, calib.d2, calib.d3,
      fun i j l => calib.data n i j l⟩)
    obtain ⟨wB, hwB⟩ := hB (transpose201 ⟨calib.d1, calib.d2, calib.d3,
      fun i j l => calib.data n i j l⟩)
    refine ⟨tr ++ [Ev.computeW 1 n, Ev.computeW 2 n],
      dictSet dA n wA, dictSet dB n wB, ?_, ?_, ?_⟩
    · show mbind (computeLoop eA eB calib n) _ = _
      rw [heq, mbind_ok]
      simp [liftE, emitEv, mret, mbind, hread, hwA, hwB]
    · intro s hs
      rcases Nat.lt_succ_iff_lt_or_eq.mp hs with h | h
      · have hne : s ≠ n := Nat.ne_of_lt h
        exact ⟨by simp [dictSet, hne, (hcov s h).1], by simp [dictSet, hne, (hcov s h).2]⟩
      · subst h
        constructor <;> simp [dictSet]
    · intro e he
      rcases List.mem_append.mp he with h | h
      · exact htr e h
      · rcases List.mem_cons.mp h with h | h
        · subst h; rfl
        · rcases List.mem_cons.mp h with h | h
          · subst h; rfl
          · exact absurd h (List.not_mem_nil e)

/-- Shape equality of 5-dimensional arrays. -/
def dims5Eq (a b : Arr5C) : Prop :=
  a.d0 = b.d0 ∧ a.d1 = b.d1 ∧ a.d2 = b.d2 ∧ a.d3 = b.d3 ∧ a.d4 = b.d4

/-- Success of the inner weight-application loop for one average: when
the average index is in range, the dictionary covers the processed
slices, and the engine's application succeeds shape-preservingly, the
loop succeeds, the buffer keeps its shape, and the trace consists
exactly of the application events of this average tagged with this
engine and dictionary. -/
theorem applySlicesLoop_ok {W : Type} (ks : Arr5C) (eng : Nat × Engine W)
    (dict : Nat × WDict W) (avg : Nat) (n : Nat) (post : Arr5C)
    (havg : avg < ks.d0) (hn : n ≤ ks.d1)
    (hdict : ∀ s, s < n → (dict.2 s).isSome)
    (happly : ∀ c w, ∃ out, eng.2.apply_weights c w = Except.ok out ∧
      out.d0 = c.d0 ∧ out.d1 = c.d1 ∧ out.d2 = c.d2)
    (hpost : dims5Eq post ks) :
    ∃ tr post2, applySlicesLoop ks eng dict avg n post = (tr, Except.ok post2)
      ∧ dims5Eq post2 ks
      ∧ (∀ e ∈ tr, ∃ s, s < n ∧ e = Ev.applyW eng.1 dict.1 avg s)
      ∧ (∀ s, s < n → Ev.applyW eng.1 dict.1 avg s ∈ tr) := by
  induction n with
  | zero =>
    refine ⟨[], post, rfl, hpost, ?_, ?_⟩
    · intro e he; exact absurd he (List.not_mem_nil e)
    · intro s hs; exact absurd hs (Nat.not_lt_zero s)
  | succ n ih =>
    obtain ⟨tr, post1, heq, hdims, htr, hev⟩ :=
      ih (Nat.le_of_succ_le hn) (fun s hs => hdict s (Nat.lt_succ_of_lt hs))
    obtain ⟨hp0, hp1, hp2, hp3, hp4⟩ := hdims
    have hread : readKSlice ks avg n =
        Except.ok ⟨ks.d2, ks.d3, ks.d4, fun c r p => ks.data avg n c r p⟩ := by
      simp [readKSlice, havg, Nat.lt_of_succ_le hn]
    obtain ⟨w, hw⟩ := Option.isSome_iff_exists.mp (hdict n (Nat.lt_succ_self n))
    have hget : dictGet dict.2 n = Except.ok w := by
      simp [dictGet, hw]
    obtain ⟨out, hout, ho0, ho1, ho2⟩ := happly
      (transpose201 ⟨ks.d2, ks.d3, ks.d4, fun c r p => ks.data avg n c r p⟩) w
    have hwrite : writePost post1 avg n (moveaxisBack out) =
        Except.ok ⟨post1.d0, post1.d1, post1.d2, post1.d3, post1.d4,
          fun a' s' c r p => if a' = avg ∧ s' = n then (moveaxisBack out).data c r p
            else post1.data a' s' c r p⟩ := by
      have hc0 : (moveaxisBack out).d0 = post1.d2 := by
        simp [moveaxisBack, ho1, transpose201, hp2]
      have hc1 : (moveaxisBack out).d1 = post1.d3 := by
        simp [moveaxisBack, ho2, transpose201, hp3]
      have hc2 : (moveaxisBack out).d2 = post1.d4 := by
        simp [moveaxisBack, ho0, transpose201, hp4]
      simp [writePost, hp0, hp1, havg, Nat.lt_of_succ_le hn, hc0, hc1, hc2]
    refine ⟨tr ++ [Ev.applyW eng.1 dict.1 avg n],
      ⟨post1.d0, post1.d1, post1.d2, post1.d3, post1.d4,
        fun a' s' c r p => if a' = avg ∧ s' = n then (moveaxisBack out).data c r p
          else post1.data a' s' c r p⟩, ?_, ?_, ?_, ?_⟩
    · show mbind (applySlicesLoop ks eng dict avg n post) _ = _
      rw [heq, mbind_ok]
      simp [liftE, emitEv, mret, mbind, hread, hget, hout, hwrite]
    · exact ⟨hp0, hp1, hp2, hp3, hp4⟩
    · intro e he
      rcases List.mem_append.mp he with h | h
      · obtain ⟨s, hs, hse⟩ := htr e h
        exact ⟨s, Nat.lt_succ_of_lt hs, hse⟩
      · rcases List.mem_cons.mp h with h | h
        · exact ⟨n, Nat.lt_succ_self n, h⟩
        · exact absurd h (List.not_mem_nil e)
    · intro s hs
      rcases Nat.lt_succ_iff_lt_or_eq.mp hs with h | h
      · exact List.mem_append.mpr (Or.inl (hev s h))
      · subst h
        exact List.mem_append.mpr (Or.inr (List.mem_singleton.mpr rfl))

/-- Success of the outer weight-application loop: when every row's
average is in range, every row's dictionary covers all slices, and
every row's engine applies weights successfully and
shape-preservingly, the loop succeeds, the buffer keeps its shape, the
trace holds only application events matching some row, and every row
contributes an application event for every slice. -/
theorem applyLoop_ok {W : Type} (ks : Arr5C) (L : List (ApplyRow W)) (post : Arr5C)
    (hrows : ∀ row ∈ L, row.1 < ks.d0
      ∧ (∀ s, s < ks.d1 → (row.2.2.2 s).isSome)
      ∧ (∀ c w, ∃ out, row.2.1.2.apply_weights c w = Except.ok out ∧
          out.d0 = c.d0 ∧ out.d1 = c.d1 ∧ out.d2 = c.d2))
    (hpost : dims5Eq post ks) :
    ∃ tr post2, applyLoop ks L post = (tr, Except.ok post2)
      ∧ dims5Eq post2 ks
      ∧ (∀ e ∈ tr, ∃ row ∈ L, ∃ s, s < ks.d1 ∧ e = Ev.applyW row.2.1.1 row.2.2.1 row.1 s)
      ∧ (∀ row ∈ L, ∀ s, s < ks.d1 → Ev.applyW row.2.1.1 row.2.2.1 row.1 s ∈ tr) := by
  induction L generalizing post with
  | nil =>
    refine ⟨[], post, rfl, hpost, ?_, ?_⟩
    · intro e he; exact absurd he (List.not_mem_nil e)
    · intro row hrow; exact absurd hrow (List.not_mem_nil row)
  | cons row rest ih =>
    obtain ⟨havg, hdict, happly⟩ := hrows row (List.mem_cons_self row rest)
    obtain ⟨tr1, post1, heq1, hdims1, htr1, hev1⟩ :=
      applySlicesLoop_ok ks row.2.1 row.2.2 row.1 ks.d1 post havg (Nat.le_refl _)
        hdict happly hpost
    obtain ⟨tr2, post2, heq2, hdims2, htr2, hev2⟩ :=
      ih post1 (fun r hr => hrows r (List.mem_cons_of_mem row hr)) hdims1
    refine ⟨tr1 ++ tr2, post2, ?_, hdims2, ?_, ?_⟩
    · show mbind (applySlicesLoop ks row.2.1 row.2.2 row.1 ks.d1 post) _ = _
      rw [heq1, mbind_ok, heq2]
    · intro e he
      rcases List.mem_append.mp he with h | h
      · obtain ⟨s, hs, hse⟩ := htr1 e h
        exact ⟨row, List.mem_cons_self row rest, s, hs, hse⟩
      · obtain ⟨r, hr, s, hs, hse⟩ := htr2 e h
        exact ⟨r, List.mem_cons_of_mem row hr, s, hs, hse⟩
    · intro r hr s hs
      rcases List.mem_cons.mp hr with h | h
      · subst h
        exact List.mem_append.mpr (Or.inl (hev1 s hs))
      · exact List.mem_append.mpr (Or.inr (hev2 r h s hs))

/-- Success of the initialization-and-calibration phase: with at least
one slice, at least two averages, a calibration volume covering every
slice, and engines whose weight computation succeeds, the phase
returns the two tagged engines and two dictionaries covering every
slice, and its trace contains no application event. -/
theorem t2_reconstruction_pre_ok {W : Type} (G : GrappaFactory W)
    (ks : Arr5C) (calib : Arr4C)
    (hna : 2 ≤ ks.d0) (hns : 1 ≤ ks.d1) (hcal : ks.d1 ≤ calib.d0)
    (hcompute : ∀ ref c, ∃ w, (G.make ref).compute_weights c = Except.ok w) :
    ∃ tr dA dB,
      t2_reconstruction_pre G ks calib =
        (Ev.initEngine 1 :: Ev.initEngine 2 :: tr,
          Except.ok ((1, G.make (transpose201 ⟨ks.d2, ks.d3, ks.d4,
              fun c r p => ks.data 0 0 c r p⟩)),
            (2, G.make (transpose201 ⟨ks.d2, ks.d3, ks.d4,
              fun c r p => ks.data 1 0 c r p⟩)), (dA, dB)))
      ∧ (∀ s, s < ks.d1 → (dA s).isSome ∧ (dB s).isSome)
      ∧ (∀ e ∈ tr, e.isApply = false) := by
  have hns0 : ks.d1 ≠ 0 := Nat.one_le_iff_ne_zero.mp hns
  have hr0 : readKSlice ks 0 0 =
      Except.ok ⟨ks.d2, ks.d3, ks.d4, fun c r p => ks.data 0 0 c r p⟩ := by
    simp [readKSlice, Nat.lt_of_lt_of_le Nat.zero_lt_two hna, hns0]
  have hr1 : readKSlice ks 1 0 =
      Except.ok ⟨ks.d2, ks.d3, ks.d4, fun c r p => ks.data 1 0 c r p⟩ := by
    simp [readKSlice, Nat.lt_of_lt_of_le Nat.one_lt_two hna, hns0]
  obtain ⟨tr, dA, dB, heq, hcov, htr⟩ := computeLoop_ok
    (G.make (transpose201 ⟨ks.d2, ks.d3, ks.d4, fun c r p => ks.data 0 0 c r p⟩))
    (G.make (transpose201 ⟨ks.d2, ks.d3, ks.d4, fun c r p => ks.data 1 0 c r p⟩))
    calib ks.d1 hcal (hcompute _) (hcompute _)
  refine ⟨tr, dA, dB, ?_, hcov, htr⟩
  show mbind (liftE (readKSlice ks 0 0)) _ = _
  rw [hr0]
  simp only [liftE, mbind, emitEv, mret, hr1, heq, mbind_ok]
  simp

/-- Success of the per-average reconstruction loop: when the header
target covers the acquired extent and the `im` buffer's spatial shape
equals the header target, every processed average pads, coil-combines
and stores successfully, and the buffer keeps its shape. -/
theorem reconLoop_ok (hdr : Hdr) (post : Arr5C) (n : Nat) (im : Arr4R)
    (hn : n ≤ post.d0) (him0 : n ≤ im.d0)
    (hro : post.d3 ≤ hdr.encoded_ro) (hpe : post.d4 ≤ hdr.encoded_pe)
    (him1 : im.d1 = post.d1) (him2 : im.d2 = hdr.encoded_ro)
    (him3 : im.d3 = hdr.encoded_pe) :
    ∃ im2, reconLoop hdr post n im = Except.ok im2
      ∧ im2.d0 = im.d0 ∧ im2.d1 = im.d1 ∧ im2.d2 = im.d2 ∧ im2.d3 = im.d3 := by
  induction n with
  | zero => exact ⟨im, rfl, rfl, rfl, rfl, rfl⟩
  | succ n ih =>
    obtain ⟨im1, heq, hi0, hi1, hi2, hi3⟩ :=
      ih (Nat.le_of_succ_le hn) (Nat.le_of_succ_le him0)
    have hread : readPostAvg post n =
        Except.ok ⟨post.d1, post.d2, post.d3, post.d4,
          fun s c r p => post.data n s c r p⟩ := by
      simp [readPostAvg, Nat.lt_of_succ_le hn]
    have hpad : zero_pad_kspace_hdr hdr ⟨post.d1, post.d2, post.d3, post.d4,
        fun s c r p => post.data n s c r p⟩ =
        Except.ok ⟨post.d1, post.d2, hdr.encoded_ro, hdr.encoded_pe, fun s c r p =>
          let offR := (hdr.encoded_ro - post.d3) / 2
          let offP := (hdr.encoded_pe - post.d4) / 2
          if offR ≤ r ∧ r < offR + post.d3 ∧ offP ≤ p ∧ p < offP + post.d4 then
            post.data n s c (r - offR) (p - offP)
          else 0⟩ := by
      simp [zero_pad_kspace_hdr, hro, hpe]
    have hb : n < im1.d0 := by rw [hi0]; exact Nat.lt_of_succ_le him0
    have hwrite := writeIm_ok im1 n (create_coil_combined_im
        ⟨post.d1, post.d2, hdr.encoded_ro, hdr.encoded_pe, fun s c r p =>
          let offR := (hdr.encoded_ro - post.d3) / 2
          let offP := (hdr.encoded_pe - post.d4) / 2
          if offR ≤ r ∧ r < offR + post.d3 ∧ offP ≤ p ∧ p < offP + post.d4 then
            post.data n s c (r - offR) (p - offP)
          else 0⟩) hb
      (by simp [create_coil_combined_im, hi1, him1])
      (by simp [create_coil_combined_im, hi2, him2])
      (by simp [create_coil_combined_im, hi3, him3])
    have hstep : reconLoop hdr post (n + 1) im = writeIm im1 n (create_coil_combined_im
        ⟨post.d1, post.d2, hdr.encoded_ro, hdr.encoded_pe, fun s c r p =>
          let offR := (hdr.encoded_ro - post.d3) / 2
          let offP := (hdr.encoded_pe - post.d4) / 2
          if offR ≤ r ∧ r < offR + post.d3 ∧ offP ≤ p ∧ p < offP + post.d4 then
            post.data n s c (r - offR) (p - offP)
          else 0⟩) := by
      show (reconLoop hdr post n im).bind _ = _
      rw [heq]
      show (readPostAvg post n).bind _ = _
      rw [hread]
      show (zero_pad_kspace_hdr hdr _).bind _ = _
      rw [hpad]
      rfl
    rw [hwrite] at hstep
    exact ⟨_, hstep, hi0, hi1, hi2, hi3⟩

/-- Claim C3, amended: for every input with 3 averages, at least one
slice, calibration covering every slice, engines whose operations
succeed shape-preservingly, and a header whose padded matrix is square
with side equal to the readout length, at least 320, and at least the
phase-encode length, the result of t2_reconstruction is a single
real-valued dataset named reconstruction_rss of shape
(num_slices, 320, 320). -/
theorem claim_C3_output_shape {W : Type} (G : GrappaFactory W)
    (ks : Arr5C) (calib : Arr4C) (hdr : Hdr)
    (hna : ks.d0 = 3) (hns : 1 ≤ ks.d1) (hcal : ks.d1 ≤ calib.d0)
    (hro : hdr.encoded_ro = ks.d3) (hpe : hdr.encoded_pe = ks.d3)
    (hpee : ks.d4 ≤ ks.d3) (h320 : 320 ≤ ks.d3)
    (hcompute : ∀ ref c, ∃ w, (G.make ref).compute_weights c = Except.ok w)
    (happly : ∀ ref c w, ∃ out, (G.make ref).apply_weights c w = Except.ok out ∧
      out.d0 = c.d0 ∧ out.d1 = c.d1 ∧ out.d2 = c.d2) :
    ∃ d, (t2_reconstruction G ks calib hdr).2 = Except.ok d
      ∧ d.reconstruction_rss.d0 = ks.d1
      ∧ d.reconstruction_rss.d1 = 320
      ∧ d.reconstruction_rss.d2 = 320 := by
  obtain ⟨tr1, dA, dB, preEq, hcov, _⟩ :=
    t2_reconstruction_pre_ok G ks calib (by omega) hns hcal hcompute
  set eA := G.make (transpose201 ⟨ks.d2, ks.d3, ks.d4,
    fun c r p => ks.data 0 0 c r p⟩) with heA
  set eB := G.make (transpose201 ⟨ks.d2, ks.d3, ks.d4,
    fun c r p => ks.data 1 0 c r p⟩) with heB
  have hrows : ∀ row ∈ ([(0, (1, eA), (1, dA)), (1, (2, eB), (2, dB)),
      (2, (1, eA), (1, dA))] : List (ApplyRow W)), row.1 < ks.d0
      ∧ (∀ s, s < ks.d1 → (row.2.2.2 s).isSome)
      ∧ (∀ c w, ∃ out, row.2.1.2.apply_weights c w = Except.ok out ∧
          out.d0 = c.d0 ∧ out.d1 = c.d1 ∧ out.d2 = c.d2) := by
    intro row hrow
    rcases List.mem_cons.mp hrow with h | hrow
    · subst h
      exact ⟨by omega, fun s hs => (hcov s hs).1, fun c w => happly _ c w⟩
    rcases List.mem_cons.mp hrow with h | hrow
    · subst h
      exact ⟨by omega, fun s hs => (hcov s hs).2, fun c w => happly _ c w⟩
    rcases List.mem_cons.mp hrow with h | hrow
    · subst h
      exact ⟨by omega, fun s hs => (hcov s hs).1, fun c w => happly _ c w⟩
    · exact absurd hrow (List.not_mem_nil row)
  obtain ⟨tr2, post2, applyEq, hdims2, _, _⟩ :=
    applyLoop_ok ks [(0, (1, eA), (1, dA)), (1, (2, eB), (2, dB)),
      (2, (1, eA), (1, dA))] (zerosLike5 ks) hrows ⟨rfl, rfl, rfl, rfl, rfl⟩
  obtain ⟨hq0, hq1, hq2, hq3, hq4⟩ := hdims2
  obtain ⟨im2, reconEq, hi0, hi1, hi2, hi3⟩ :=
    reconLoop_ok hdr post2 ks.d0 (imBuffer ks)
      (by rw [hq0]) (by simp [imBuffer])
      (by rw [hq3, hro]) (by rw [hq4, hpe]; exact hpee)
      (by simp [imBuffer, hq1]) (by simp [imBuffer, hro])
      (by simp [imBuffer, hpe])
  have cropEq : center_crop_im (meanAxis0 im2) 320 320 =
      Except.ok ⟨(meanAxis0 im2).d0, 320, 320, fun s r c =>
        (meanAxis0 im2).data s (r + ((meanAxis0 im2).d1 - 320) / 2)
          (c + ((meanAxis0 im2).d2 - 320) / 2)⟩ := by
    have h1 : (320 : Nat) ≤ (meanAxis0 im2).d1 := by
      simp only [meanAxis0]
      rw [hi2]
      simpa [imBuffer] using h320
    have h2 : (320 : Nat) ≤ (meanAxis0 im2).d2 := by
      simp only [meanAxis0]
      rw [hi3]
      simpa [imBuffer] using h320
    simp [center_crop_im, h1, h2]
  refine ⟨⟨⟨(meanAxis0 im2).d0, 320, 320, fun s r c =>
    (meanAxis0 im2).data s (r + ((meanAxis0 im2).d1 - 320) / 2)
      (c + ((meanAxis0 im2).d2 - 320) / 2)⟩⟩, ?_, ?_, rfl, rfl⟩
  · unfold t2_reconstruction
    rw [preEq, mbind_ok]
    simp only [applyRows]
    show (mbind (applyLoop ks _ (zerosLike5 ks)) _).2 = _
    rw [show (List.zip [0, 1, 2] (List.zip [(1, eA), (2, eB), (1, eA)]
      [(1, dA), (2, dB), (1, dA)]) : List (ApplyRow W)) =
      [(0, (1, eA), (1, dA)), (1, (2, eB), (2, dB)), (2, (1, eA), (1, dA))] from rfl]
    rw [applyEq, mbind_ok]
    show (mbind (liftE (reconLoop hdr post2 ks.d0 (imBuffer ks))) _).2 = _
    rw [reconEq]
    rw [show liftE (Except.ok im2) = (([] : List Ev), Except.ok im2) from rfl, mbind_ok]
    simp [mbind, mret, liftE, cropEq]
  · show (meanAxis0 im2).d0 = ks.d1
    simp only [meanAxis0]
    rw [hi1]
    simp [imBuffer]

theorem claim_C3_output_shape_witness :
    ∃ d, (t2_reconstruction idFactory (zeroKS 3 1 1 320 320) (zeroCalib 1 1 320 5)
        ⟨320, 320⟩).2 = Except.ok d
      ∧ d.reconstruction_rss.d0 = (zeroKS 3 1 1 320 320).d1
      ∧ d.reconstruction_rss.d1 = 320
      ∧ d.reconstruction_rss.d2 = 320 :=
  claim_C3_output_shape idFactory (zeroKS 3 1 1 320 320) (zeroCalib 1 1 320 5)
    ⟨320, 320⟩ rfl (by decide) (by decide) rfl rfl (by decide) (by decide)
    (fun _ _ => ⟨(), rfl⟩) (fun _ c _ => ⟨c, rfl, rfl, rfl, rfl⟩)

/-- Claim C3 fails as stated: a padded matrix of 320 by 336 satisfies
the claim's premise (3 averages, padded image at least 320 in each
spatial dimension), yet the run aborts with a broadcast error instead
of returning a (num_slices, 320, 320) dataset, because the per-average
image buffer is square with side equal to the readout length. -/
theorem claim_C3_counterexample :
    320 ≤ (⟨320, 336⟩ : Hdr).encoded_ro ∧ 320 ≤ (⟨320, 336⟩ : Hdr).encoded_pe ∧
    (t2_reconstruction idFactory (zeroKS 3 1 1 320 320) (zeroCalib 1 1 320 5)
        ⟨320, 336⟩).2 = Except.error RErr.valueError :=
  ⟨by decide, by decide, rfl⟩

/-- Failure of the per-average reconstruction loop: when the header
target passes the padding check but has a spatial extent that neither
equals the `im` buffer's extent nor is 1 (so numpy cannot broadcast
it), the very first processed average fails the broadcast check of the
per-slice image assignment. -/
theorem reconLoop_fail (hdr : Hdr) (post : Arr5C) (n : Nat) (im : Arr4R)
    (hn1 : 1 ≤ n) (hn : n ≤ post.d0) (him0 : n ≤ im.d0)
    (hro : post.d3 ≤ hdr.encoded_ro) (hpe : post.d4 ≤ hdr.encoded_pe)
    (hmm : ¬((hdr.encoded_ro = im.d2 ∨ hdr.encoded_ro = 1)
      ∧ (hdr.encoded_pe = im.d3 ∨ hdr.encoded_pe = 1))) :
    reconLoop hdr post n im = Except.error RErr.valueError := by
  induction n with
  | zero => exact absurd hn1 (by omega)
  | succ n ih =>
    rcases Nat.eq_zero_or_pos n with h0 | hpos
    · subst h0
      have hread : readPostAvg post 0 =
          Except.ok ⟨post.d1, post.d2, post.d3, post.d4,
            fun s c r p => post.data 0 s c r p⟩ := by
        simp [readPostAvg, Nat.lt_of_succ_le hn]
      have hpad : zero_pad_kspace_hdr hdr ⟨post.d1, post.d2, post.d3, post.d4,
          fun s c r p => post.data 0 s c r p⟩ =
          Except.ok ⟨post.d1, post.d2, hdr.encoded_ro, hdr.encoded_pe, fun s c r p =>
            let offR := (hdr.encoded_ro - post.d3) / 2
            let offP := (hdr.encoded_pe - post.d4) / 2
            if offR ≤ r ∧ r < offR + post.d3 ∧ offP ≤ p ∧ p < offP + post.d4 then
              post.data 0 s c (r - offR) (p - offP)
            else 0⟩ := by
        simp [zero_pad_kspace_hdr, hro, hpe]
      have hwrite : writeIm im 0 (create_coil_combined_im
          ⟨post.d1, post.d2, hdr.encoded_ro, hdr.encoded_pe, fun s c r p =>
            let offR := (hdr.encoded_ro - post.d3) / 2
            let offP := (hdr.encoded_pe - post.d4) / 2
            if offR ≤ r ∧ r < offR + post.d3 ∧ offP ≤ p ∧ p < offP + post.d4 then
              post.data 0 s c (r - offR) (p - offP)
            else 0⟩) = Except.error RErr.valueError := by
        have hb : 0 < im.d0 := Nat.lt_of_succ_le him0
        unfold writeIm
        rw [if_pos hb, if_neg]
        intro hcond
        exact hmm ⟨hcond.2.1, hcond.2.2⟩
      simp only [reconLoop]
      show (readPostAvg post 0).bind _ = Except.error RErr.valueError
      rw [hread]
      show (zero_pad_kspace_hdr hdr _).bind _ = Except.error RErr.valueError
      rw [hpad]
      exact hwrite
    · have hrec := ih hpos (by omega) (by omega)
      simp only [reconLoop]
      rw [hrec]
      rfl

/-- Claim C10, amended: t2_reconstruction allocates the per-average
image buffer with both spatial dimensions equal to the readout length,
so for any header-padded matrix with a spatial extent that differs
from both the readout length and 1 (in particular any non-square,
non-degenerate matrix) the per-slice image assignment fails with a
broadcast error rather than producing a (num_slices, 320, 320)
output.  (A size-1 extent is the exception: numpy broadcasts it, so a
non-square padded matrix such as 320 by 1 still succeeds.) -/
theorem claim_C10_square_image_buffer {W : Type} (G : GrappaFactory W)
    (ks : Arr5C) (calib : Arr4C) (hdr : Hdr)
    (hna : ks.d0 = 3) (hns : 1 ≤ ks.d1) (hcal : ks.d1 ≤ calib.d0)
    (hro : ks.d3 ≤ hdr.encoded_ro) (hpe : ks.d4 ≤ hdr.encoded_pe)
    (hnb : ¬((hdr.encoded_ro = ks.d3 ∨ hdr.encoded_ro = 1)
      ∧ (hdr.encoded_pe = ks.d3 ∨ hdr.encoded_pe = 1)))
    (hcompute : ∀ ref c, ∃ w, (G.make ref).compute_weights c = Except.ok w)
    (happly : ∀ ref c w, ∃ out, (G.make ref).apply_weights c w = Except.ok out ∧
      out.d0 = c.d0 ∧ out.d1 = c.d1 ∧ out.d2 = c.d2) :
    ((imBuffer ks).d2 = ks.d3 ∧ (imBuffer ks).d3 = ks.d3)
      ∧ (t2_reconstruction G ks calib hdr).2 = Except.error RErr.valueError := by
  refine ⟨⟨rfl, rfl⟩, ?_⟩
  obtain ⟨tr1, dA, dB, preEq, hcov, _⟩ :=
    t2_reconstruction_pre_ok G ks calib (by omega) hns hcal hcompute
  set eA := G.make (transpose201 ⟨ks.d2, ks.d3, ks.d4,
    fun c r p => ks.data 0 0 c r p⟩) with heA
  set eB := G.make (transpose201 ⟨ks.d2, ks.d3, ks.d4,
    fun c r p => ks.data 1 0 c r p⟩) with heB
  have hrows : ∀ row ∈ ([(0, (1, eA), (1, dA)), (1, (2, eB), (2, dB)),
      (2, (1, eA), (1, dA))] : List (ApplyRow W)), row.1 < ks.d0
      ∧ (∀ s, s < ks.d1 → (row.2.2.2 s).isSome)
      ∧ (∀ c w, ∃ out, row.2.1.2.apply_weights c w = Except.ok out ∧
          out.d0 = c.d0 ∧ out.d1 = c.d1 ∧ out.d2 = c.d2) := by
    intro row hrow
    rcases List.mem_cons.mp hrow with h | hrow
    · subst h
      exact ⟨by omega, fun s hs => (hcov s hs).1, fun c w => happly _ c w⟩
    rcases List.mem_cons.mp hrow with h | hrow
    · subst h
      exact ⟨by omega, fun s hs => (hcov s hs).2, fun c w => happly _ c w⟩
    rcases List.mem_cons.mp hrow with h | hrow
    · subst h
      exact ⟨by omega, fun s hs => (hcov s hs).1, fun c w => happly _ c w⟩
    · exact absurd hrow (List.not_mem_nil row)
  obtain ⟨tr2, post2, applyEq, hdims2, _, _⟩ :=
    applyLoop_ok ks [(0, (1, eA), (1, dA)), (1, (2, eB), (2, dB)),
      (2, (1, eA), (1, dA))] (zerosLike5 ks) hrows ⟨rfl, rfl, rfl, rfl, rfl⟩
  obtain ⟨hq0, hq1, hq2, hq3, hq4⟩ := hdims2
  have reconFail : reconLoop hdr post2 ks.d0 (imBuffer ks) =
      Except.error RErr.valueError :=
    reconLoop_fail hdr post2 ks.d0 (imBuffer ks)
      (by omega) (by rw [hq0]) (by simp [imBuffer])
      (by rw [hq3]; exact hro) (by rw [hq4]; exact hpe) hnb
  unfold t2_reconstruction
  rw [preEq, mbind_ok]
  simp only [applyRows]
  show (mbind (applyLoop ks _ (zerosLike5 ks)) _).2 = _
  rw [show (List.zip [0, 1, 2] (List.zip [(1, eA), (2, eB), (1, eA)]
    [(1, dA), (2, dB), (1, dA)]) : List (ApplyRow W)) =
    [(0, (1, eA), (1, dA)), (1, (2, eB), (2, dB)), (2, (1, eA), (1, dA))] from rfl]
  rw [applyEq, mbind_ok]
  show (mbind (liftE (reconLoop hdr post2 ks.d0 (imBuffer ks))) _).2 = _
  rw [reconFail]
  rfl

theorem claim_C10_square_image_buffer_witness :
    ((imBuffer (zeroKS 3 1 1 320 320)).d2 = (zeroKS 3 1 1 320 320).d3
      ∧ (imBuffer (zeroKS 3 1 1 320 320)).d3 = (zeroKS 3 1 1 320 320).d3)
    ∧ (t2_reconstruction idFactory (zeroKS 3 1 1 320 320) (zeroCalib 1 1 320 5)
        ⟨336, 320⟩).2 = Except.error RErr.valueError :=
  claim_C10_square_image_buffer idFactory (zeroKS 3 1 1 320 320)
    (zeroCalib 1 1 320 5) ⟨336, 320⟩ rfl (by decide) (by decide) (by decide)
    (by decide) (by decide) (fun _ _ => ⟨(), rfl⟩)
    (fun _ c _ => ⟨c, rfl, rfl, rfl, rfl⟩)

/-- Claim C10 fails as stated: numpy broadcasts size-1 axes on
assignment, so a non-square padded matrix of 320 by 1 does not make
the per-slice image assignment fail — the (num_slices, 320, 1)
combined image broadcasts into the (num_slices, 320, 320) buffer and
the run returns a (num_slices, 320, 320) dataset. -/
theorem claim_C10_counterexample :
    (⟨320, 1⟩ : Hdr).encoded_ro ≠ (⟨320, 1⟩ : Hdr).encoded_pe
    ∧ ∃ d, (t2_reconstruction idFactory (zeroKS 3 1 1 320 1) (zeroCalib 1 1 320 5)
        ⟨320, 1⟩).2 = Except.ok d
      ∧ d.reconstruction_rss.d0 = 1
      ∧ d.reconstruction_rss.d1 = 320
      ∧ d.reconstruction_rss.d2 = 320 :=
  ⟨by decide, ⟨_, rfl, rfl, rfl, rfl⟩⟩

/-- Failure of the inner weight-application loop when the average
index is out of range: the very first slice read fails, so the loop
produces an index error and records no event. -/
theorem applySlicesLoop_outOfRange {W : Type} (ks : Arr5C) (eng : Nat × Engine W)
    (dict : Nat × WDict W) (avg : Nat) (n : Nat) (post : Arr5C)
    (havg : ¬ avg < ks.d0) (hn : 1 ≤ n) :
    applySlicesLoop ks eng dict avg n post = ([], Except.error RErr.indexError) := by
  induction n with
  | zero => exact absurd hn (by omega)
  | succ n ih =>
    rcases Nat.eq_zero_or_pos n with h0 | hpos
    · subst h0
      have hread : readKSlice ks avg 0 = Except.error RErr.indexError := by
        simp [readKSlice, havg]
      show mbind (applySlicesLoop ks eng dict avg 0 post) _ = _
      show mbind (mret post) _ = _
      rw [show mret post = (([] : List Ev), Except.ok post) from rfl, mbind_ok]
      simp [liftE, mbind, hread]
    · have hrec := ih hpos
      show mbind (applySlicesLoop ks eng dict avg n post) _ = _
      rw [hrec, mbind_err]

/-- Claim C2, amended: supplying 2 averages instead of 3 does not
raise `InputShapeError` and is not detected before engine
initialization; both engines are initialized and both weight
dictionaries are computed, and the run fails with an index error when
the weight-application loop reads average 2's first slice. -/
theorem claim_C2_two_averages {W : Type} (G : GrappaFactory W)
    (ks : Arr5C) (calib : Arr4C) (hdr : Hdr)
    (hna : ks.d0 = 2) (hns : 1 ≤ ks.d1) (hcal : ks.d1 ≤ calib.d0)
    (hcompute : ∀ ref c, ∃ w, (G.make ref).compute_weights c = Except.ok w)
    (happly : ∀ ref c w, ∃ out, (G.make ref).apply_weights c w = Except.ok out ∧
      out.d0 = c.d0 ∧ out.d1 = c.d1 ∧ out.d2 = c.d2) :
    (t2_reconstruction G ks calib hdr).2 = Except.error RErr.indexError
    ∧ Ev.initEngine 1 ∈ (t2_reconstruction G ks calib hdr).1
    ∧ Ev.initEngine 2 ∈ (t2_reconstruction G ks calib hdr).1 := by
  obtain ⟨tr1, dA, dB, preEq, hcov, _⟩ :=
    t2_reconstruction_pre_ok G ks calib (by omega) hns hcal hcompute
  set eA := G.make (transpose201 ⟨ks.d2, ks.d3, ks.d4,
    fun c r p => ks.data 0 0 c r p⟩) with heA
  set eB := G.make (transpose201 ⟨ks.d2, ks.d3, ks.d4,
    fun c r p => ks.data 1 0 c r p⟩) with heB
  obtain ⟨tr2, post1, eq0, hdims1, _, _⟩ :=
    applySlicesLoop_ok ks (1, eA) (1, dA) 0 ks.d1 (zerosLike5 ks)
      (by omega) (Nat.le_refl _) (fun s hs => (hcov s hs).1) (fun c w => happly _ c w)
      ⟨rfl, rfl, rfl, rfl, rfl⟩
  obtain ⟨tr3, post2, eq1, hdims2, _, _⟩ :=
    applySlicesLoop_ok ks (2, eB) (2, dB) 1 ks.d1 post1
      (by omega) (Nat.le_refl _) (fun s hs => (hcov s hs).2) (fun c w => happly _ c w)
      hdims1
  have eq2 : applySlicesLoop ks (1, eA) (1, dA) 2 ks.d1 post2 =
      ([], Except.error RErr.indexError) :=
    applySlicesLoop_outOfRange ks (1, eA) (1, dA) 2 ks.d1 post2 (by omega) hns
  have applyEq : applyLoop ks [(0, (1, eA), (1, dA)), (1, (2, eB), (2, dB)),
      (2, (1, eA), (1, dA))] (zerosLike5 ks) =
      (tr2 ++ (tr3 ++ []), Except.error RErr.indexError) := by
    show mbind (applySlicesLoop ks (1, eA) (1, dA) 0 ks.d1 (zerosLike5 ks)) _ = _
    rw [eq0, mbind_ok]
    show (tr2 ++ (mbind (applySlicesLoop ks (2, eB) (2, dB) 1 ks.d1 post1) _).1,
      (mbind (applySlicesLoop ks (2, eB) (2, dB) 1 ks.d1 post1) _).2) = _
    rw [eq1, mbind_ok]
    show (tr2 ++ (tr3 ++ (mbind (applySlicesLoop ks (1, eA) (1, dA) 2 ks.d1 post2) _).1),
      (mbind (applySlicesLoop ks (1, eA) (1, dA) 2 ks.d1 post2) _).2) = _
    rw [eq2, mbind_err]
  have main : t2_reconstruction G ks calib hdr =
      ((Ev.initEngine 1 :: Ev.initEngine 2 :: tr1) ++ (tr2 ++ (tr3 ++ [])),
        Except.error RErr.indexError) := by
    unfold t2_reconstruction
    rw [preEq, mbind_ok]
    simp only [applyRows]
    show (_ ++ (mbind (applyLoop ks _ (zerosLike5 ks)) _).1,
      (mbind (applyLoop ks _ (zerosLike5 ks)) _).2) = _
    rw [show (List.zip [0, 1, 2] (List.zip [(1, eA), (2, eB), (1, eA)]
      [(1, dA), (2, dB), (1, dA)]) : List (ApplyRow W)) =
      [(0, (1, eA), (1, dA)), (1, (2, eB), (2, dB)), (2, (1, eA), (1, dA))] from rfl]
    rw [applyEq, mbind_err]
  rw [main]
  refine ⟨rfl, ?_, ?_⟩
  · exact List.mem_append.mpr (Or.inl (List.mem_cons_self _ _))
  · exact List.mem_append.mpr (Or.inl (List.mem_cons.mpr
      (Or.inr (List.mem_cons_self _ _))))

theorem claim_C2_two_averages_witness :
    (t2_reconstruction idFactory (zeroKS 2 1 1 4 4) (zeroCalib 1 1 4 4) ⟨4, 4⟩).2
        = Except.error RErr.indexError
    ∧ Ev.initEngine 1 ∈ (t2_reconstruction idFactory (zeroKS 2 1 1 4 4)
        (zeroCalib 1 1 4 4) ⟨4, 4⟩).1
    ∧ Ev.initEngine 2 ∈ (t2_reconstruction idFactory (zeroKS 2 1 1 4 4)
        (zeroCalib 1 1 4 4) ⟨4, 4⟩).1 :=
  claim_C2_two_averages idFactory (zeroKS 2 1 1 4 4) (zeroCalib 1 1 4 4) ⟨4, 4⟩
    rfl (by decide) (by decide) (fun _ _ => ⟨(), rfl⟩)
    (fun _ c _ => ⟨c, rfl, rfl, rfl, rfl⟩)

/-- Claim C2 fails as stated: on a concrete k-space input with 2
averages, t2_reconstruction does not raise `InputShapeError` before
engine initialization — both engines are initialized, the whole
calibration loop runs, and the failure is an `IndexError` raised in
the weight-application loop. -/
theorem claim_C2_counterexample :
    (t2_reconstruction idFactory (zeroKS 2 1 1 4 4) (zeroCalib 1 1 4 4) ⟨4, 4⟩).2
        = Except.error RErr.indexError
    ∧ (t2_reconstruction idFactory (zeroKS 2 1 1 4 4) (zeroCalib 1 1 4 4) ⟨4, 4⟩).2
        ≠ Except.error RErr.inputShape
    ∧ (t2_reconstruction idFactory (zeroKS 2 1 1 4 4) (zeroCalib 1 1 4 4) ⟨4, 4⟩).1
        = [Ev.initEngine 1, Ev.initEngine 2, Ev.computeW 1 0, Ev.computeW 2 0,
           Ev.applyW 1 1 0 0, Ev.applyW 2 2 1 0] := by
  refine ⟨rfl, ?_, rfl⟩
  intro h
  rw [show (t2_reconstruction idFactory (zeroKS 2 1 1 4 4) (zeroCalib 1 1 4 4)
    ⟨4, 4⟩).2 = Except.error RErr.indexError from rfl] at h
  simp at h

theorem create_coil_combined_im_zero (k : Arr4C)
    (hk : ∀ s c r p, k.data s c r p = 0) (i r p : Nat) :
    (create_coil_combined_im k).data i r p = 0 := by
  simp [create_coil_combined_im, flipud, rss, ifftnd, slice4, hk]

/-- Zero propagation through the inner weight-application loop: with
an all-zero k-space, an all-zero buffer, and an engine whose
application maps all-zero input to itself, the loop succeeds and the
buffer stays all zero. -/
theorem applySlicesLoop_zero {W : Type} (ks : Arr5C) (eng : Nat × Engine W)
    (dict : Nat × WDict W) (avg : Nat) (n : Nat) (post : Arr5C)
    (hksz : ∀ a s c r p, ks.data a s c r p = 0)
    (havg : avg < ks.d0) (hn : n ≤ ks.d1)
    (hdict : ∀ s, s < n → (dict.2 s).isSome)
    (happlyz : ∀ c w, (∀ i j l, c.data i j l = 0) →
      eng.2.apply_weights c w = Except.ok c)
    (hpost : dims5Eq post ks) (hpz : ∀ a s c r p, post.data a s c r p = 0) :
    ∃ tr post2, applySlicesLoop ks eng dict avg n post = (tr, Except.ok post2)
      ∧ dims5Eq post2 ks ∧ (∀ a s c r p, post2.data a s c r p = 0) := by
  induction n with
  | zero => exact ⟨[], post, rfl, hpost, hpz⟩
  | succ n ih =>
    obtain ⟨tr, post1, heq, hdims, hz1⟩ :=
      ih (Nat.le_of_succ_le hn) (fun s hs => hdict s (Nat.lt_succ_of_lt hs))
    obtain ⟨hp0, hp1, hp2, hp3, hp4⟩ := hdims
    have hread : readKSlice ks avg n =
        Except.ok ⟨ks.d2, ks.d3, ks.d4, fun c r p => ks.data avg n c r p⟩ := by
      simp [readKSlice, havg, Nat.lt_of_succ_le hn]
    obtain ⟨w, hw⟩ := Option.isSome_iff_exists.mp (hdict n (Nat.lt_succ_self n))
    have hget : dictGet dict.2 n = Except.ok w := by
      simp [dictGet, hw]
    have happ : eng.2.apply_weights (transpose201 ⟨ks.d2, ks.d3, ks.d4,
        fun c r p => ks.data avg n c r p⟩) w =
        Except.ok (transpose201 ⟨ks.d2, ks.d3, ks.d4,
          fun c r p => ks.data avg n c r p⟩) :=
      happlyz _ w (fun i j l => hksz avg n j l i)
    have hwrite : writePost post1 avg n (moveaxisBack (transpose201
        ⟨ks.d2, ks.d3, ks.d4, fun c r p => ks.data avg n c r p⟩)) =
        Except.ok ⟨post1.d0, post1.d1, post1.d2, post1.d3, post1.d4,
          fun a' s' c r p => if a' = avg ∧ s' = n then
            (moveaxisBack (transpose201 ⟨ks.d2, ks.d3, ks.d4,
              fun c r p => ks.data avg n c r p⟩)).data c r p
            else post1.data a' s' c r p⟩ := by
      simp [writePost, hp0, hp1, havg, Nat.lt_of_succ_le hn, moveaxisBack,
        transpose201, hp2, hp3, hp4]
    refine ⟨tr ++ [Ev.applyW eng.1 dict.1 avg n],
      ⟨post1.d0, post1.d1, post1.d2, post1.d3, post1.d4,
        fun a' s' c r p => if a' = avg ∧ s' = n then
          (moveaxisBack (transpose201 ⟨ks.d2, ks.d3, ks.d4,
            fun c r p => ks.data avg n c r p⟩)).data c r p
          else post1.data a' s' c r p⟩, ?_, ⟨hp0, hp1, hp2, hp3, hp4⟩, ?_⟩
    · show mbind (applySlicesLoop ks eng dict avg n post) _ = _
      rw [heq, mbind_ok]
      simp [liftE, emitEv, mret, mbind, hread, hget, happ, hwrite]
    · intro a s c r p
      dsimp only
      split
      · exact hksz avg n c r p
      · exact hz1 a s c r p

/-- Zero propagation through the outer weight-application loop. -/
theorem applyLoop_zero {W : Type} (ks : Arr5C) (L : List (ApplyRow W)) (post : Arr5C)
    (hksz : ∀ a s c r p, ks.data a s c r p = 0)
    (hrows : ∀ row ∈ L, row.1 < ks.d0
      ∧ (∀ s, s < ks.d1 → (row.2.2.2 s).isSome)
      ∧ (∀ c w, (∀ i j l, c.data i j l = 0) →
          row.2.1.2.apply_weights c w = Except.ok c))
    (hpost : dims5Eq post ks) (hpz : ∀ a s c r p, post.data a s c r p = 0) :
    ∃ tr post2, applyLoop ks L post = (tr, Except.ok post2)
      ∧ dims5Eq post2 ks ∧ (∀ a s c r p, post2.data a s c r p = 0) := by
  induction L generalizing post with
  | nil => exact ⟨[], post, rfl, hpost, hpz⟩
  | cons row rest ih =>
    obtain ⟨havg, hdict, happlyz⟩ := hrows row (List.mem_cons_self row rest)
    obtain ⟨tr1, post1, heq1, hdims1, hz1⟩ :=
      applySlicesLoop_zero ks row.2.1 row.2.2 row.1 ks.d1 post hksz havg
        (Nat.le_refl _) hdict happlyz hpost hpz
    obtain ⟨tr2, post2, heq2, hdims2, hz2⟩ :=
      ih post1 (fun r hr => hrows r (List.mem_cons_of_mem row hr))
        hdims1 hz1
    refine ⟨tr1 ++ tr2, post2, ?_, hdims2, hz2⟩
    show mbind (applySlicesLoop ks row.2.1 row.2.2 row.1 ks.d1 post) _ = _
    rw [heq1, mbind_ok, heq2]

/-- Zero propagation through the per-average reconstruction loop. -/
theorem reconLoop_zero (hdr : Hdr) (post : Arr5C) (n : Nat) (im : Arr4R)
    (hpz : ∀ a s c r p, post.data a s c r p = 0)
    (hn : n ≤ post.d0) (him0 : n ≤ im.d0)
    (hro : post.d3 ≤ hdr.encoded_ro) (hpe : post.d4 ≤ hdr.encoded_pe)
    (him1 : im.d1 = post.d1) (him2 : im.d2 = hdr.encoded_ro)
    (him3 : im.d3 = hdr.encoded_pe)
    (himz : ∀ a s r c, im.data a s r c = 0) :
    ∃ im2, reconLoop hdr post n im = Except.ok im2
      ∧ im2.d0 = im.d0 ∧ im2.d1 = im.d1 ∧ im2.d2 = im.d2 ∧ im2.d3 = im.d3
      ∧ (∀ a s r c, im2.data a s r c = 0) := by
  induction n with
  | zero => exact ⟨im, rfl, rfl, rfl, rfl, rfl, himz⟩
  | succ n ih =>
    obtain ⟨im1, heq, hi0, hi1, hi2, hi3, hz1⟩ :=
      ih (Nat.le_of_succ_le hn) (Nat.le_of_succ_le him0)
    have hread : readPostAvg post n =
        Except.ok ⟨post.d1, post.d2, post.d3, post.d4,
          fun s c r p => post.data n s c r p⟩ := by
      simp [readPostAvg, Nat.lt_of_succ_le hn]
    have hpad : zero_pad_kspace_hdr hdr ⟨post.d1, post.d2, post.d3, post.d4,
        fun s c r p => post.data n s c r p⟩ =
        Except.ok ⟨post.d1, post.d2, hdr.encoded_ro, hdr.encoded_pe, fun s c r p =>
          let offR := (hdr.encoded_ro - post.d3) / 2
          let offP := (hdr.encoded_pe - post.d4) / 2
          if offR ≤ r ∧ r < offR + post.d3 ∧ offP ≤ p ∧ p < offP + post.d4 then
            post.data n s c (r - offR) (p - offP)
          else 0⟩ := by
      simp [zero_pad_kspace_hdr, hro, hpe]
    have hpadz : ∀ s c r p, (⟨post.d1, post.d2, hdr.encoded_ro, hdr.encoded_pe,
        fun s c r p =>
          let offR := (hdr.encoded_ro - post.d3) / 2
          let offP := (hdr.encoded_pe - post.d4) / 2
          if offR ≤ r ∧ r < offR + post.d3 ∧ offP ≤ p ∧ p < offP + post.d4 then
            post.data n s c (r - offR) (p - offP)
          else 0⟩ : Arr4C).data s c r p = 0 := by
      intro s c r p
      dsimp only
      split
      · exact hpz n s c _ _
      · rfl
    have hb : n < im1.d0 := by rw [hi0]; exact Nat.lt_of_succ_le him0
    have hwrite := writeIm_ok im1 n (create_coil_combined_im
        ⟨post.d1, post.d2, hdr.encoded_ro, hdr.encoded_pe, fun s c r p =>
          let offR := (hdr.encoded_ro - post.d3) / 2
          let offP := (hdr.encoded_pe - post.d4) / 2
          if offR ≤ r ∧ r < offR + post.d3 ∧ offP ≤ p ∧ p < offP + post.d4 then
            post.data n s c (r - offR) (p - offP)
          else 0⟩) hb
      (by simp [create_coil_combined_im, hi1, him1])
      (by simp [create_coil_combined_im, hi2, him2])
      (by simp [create_coil_combined_im, hi3, him3])
    have hstep : reconLoop hdr post (n + 1) im = writeIm im1 n (create_coil_combined_im
        ⟨post.d1, post.d2, hdr.encoded_ro, hdr.encoded_pe, fun s c r p =>
          let offR := (hdr.encoded_ro - post.d3) / 2
          let offP := (hdr.encoded_pe - post.d4) / 2
          if offR ≤ r ∧ r < offR + post.d3 ∧ offP ≤ p ∧ p < offP + post.d4 then
            post.data n s c (r - offR) (p - offP)
          else 0⟩) := by
      show (reconLoop hdr post n im).bind _ = _
      rw [heq]
      show (readPostAvg post n).bind _ = _
      rw [hread]
      show (zero_pad_kspace_hdr hdr _).bind _ = _
      rw [hpad]
      rfl
    rw [hwrite] at hstep
    refine ⟨_, hstep, hi0, hi1, hi2, hi3, ?_⟩
    intro a s r c
    dsimp only
    split
    · exact create_coil_combined_im_zero _ hpadz _ _ _
    · exact hz1 a s r c

/-- Claim C7: for every all-zero KSpaceVolume and every valid
CalibrationVolume and header, assuming the engine's applyWeights maps
an all-zero input to an all-zero output (and weight computation
succeeds), the final image stack returned by t2_reconstruction is all
zero. -/
theorem claim_C7_zero_input {W : Type} (G : GrappaFactory W)
    (ks : Arr5C) (calib : Arr4C) (hdr : Hdr)
    (hksz : ∀ a s c r p, ks.data a s c r p = 0)
    (hna : ks.d0 = 3) (hns : 1 ≤ ks.d1) (hcal : ks.d1 ≤ calib.d0)
    (hro : hdr.encoded_ro = ks.d3) (hpe : hdr.encoded_pe = ks.d3)
    (hpee : ks.d4 ≤ ks.d3) (h320 : 320 ≤ ks.d3)
    (hcompute : ∀ ref c, ∃ w, (G.make ref).compute_weights c = Except.ok w)
    (happlyz : ∀ ref c w, (∀ i j l, c.data i j l = 0) →
      (G.make ref).apply_weights c w = Except.ok c) :
    ∃ d, (t2_reconstruction G ks calib hdr).2 = Except.ok d
      ∧ ∀ s r c, d.reconstruction_rss.data s r c = 0 := by
  obtain ⟨tr1, dA, dB, preEq, hcov, _⟩ :=
    t2_reconstruction_pre_ok G ks calib (by omega) hns hcal hcompute
  set eA := G.make (transpose201 ⟨ks.d2, ks.d3, ks.d4,
    fun c r p => ks.data 0 0 c r p⟩) with heA
  set eB := G.make (transpose201 ⟨ks.d2, ks.d3, ks.d4,
    fun c r p => ks.data 1 0 c r p⟩) with heB
  have hrows : ∀ row ∈ ([(0, (1, eA), (1, dA)), (1, (2, eB), (2, dB)),
      (2, (1, eA), (1, dA))] : List (ApplyRow W)), row.1 < ks.d0
      ∧ (∀ s, s < ks.d1 → (row.2.2.2 s).isSome)
      ∧ (∀ c w, (∀ i j l, c.data i j l = 0) →
          row.2.1.2.apply_weights c w = Except.ok c) := by
    intro row hrow
    rcases List.mem_cons.mp hrow with h | hrow
    · subst h
      exact ⟨by omega, fun s hs => (hcov s hs).1, fun c w hz => happlyz _ c w hz⟩
    rcases List.mem_cons.mp hrow with h | hrow
    · subst h
      exact ⟨by omega, fun s hs => (hcov s hs).2, fun c w hz => happlyz _ c w hz⟩
    rcases List.mem_cons.mp hrow with h | hrow
    · subst h
      exact ⟨by omega, fun s hs => (hcov s hs).1, fun c w hz => happlyz _ c w hz⟩
    · exact absurd hrow (List.not_mem_nil row)
  obtain ⟨tr2, post2, applyEq, hdims2, hpz2⟩ :=
    applyLoop_zero ks [(0, (1, eA), (1, dA)), (1, (2, eB), (2, dB)),
      (2, (1, eA), (1, dA))] (zerosLike5 ks) hksz hrows
      ⟨rfl, rfl, rfl, rfl, rfl⟩ (fun _ _ _ _ _ => rfl)
  obtain ⟨hq0, hq1, hq2, hq3, hq4⟩ := hdims2
  obtain ⟨im2, reconEq, hi0, hi1, hi2, hi3, himz⟩ :=
    reconLoop_zero hdr post2 ks.d0 (imBuffer ks) hpz2
      (by rw [hq0]) (by simp [imBuffer])
      (by rw [hq3, hro]) (by rw [hq4, hpe]; exact hpee)
      (by simp [imBuffer, hq1]) (by simp [imBuffer, hro])
      (by simp [imBuffer, hpe]) (fun _ _ _ _ => rfl)
  have hmeanz : ∀ s r c, (meanAxis0 im2).data s r c = 0 := by
    intro s r c
    simp [meanAxis0, himz]
  have cropEq : center_crop_im (meanAxis0 im2) 320 320 =
      Except.ok ⟨(meanAxis0 im2).d0, 320, 320, fun s r c =>
        (meanAxis0 im2).data s (r + ((meanAxis0 im2).d1 - 320) / 2)
          (c + ((meanAxis0 im2).d2 - 320) / 2)⟩ := by
    have h1 : (320 : Nat) ≤ (meanAxis0 im2).d1 := by
      simp only [meanAxis0]
      rw [hi2]
      simpa [imBuffer, hro] using h320
    have h2 : (320 : Nat) ≤ (meanAxis0 im2).d2 := by
      simp only [meanAxis0]
      rw [hi3]
      simpa [imBuffer, hpe] using h320
    simp [center_crop_im, h1, h2]
  refine ⟨⟨⟨(meanAxis0 im2).d0, 320, 320, fun s r c =>
    (meanAxis0 im2).data s (r + ((meanAxis0 im2).d1 - 320) / 2)
      (c + ((meanAxis0 im2).d2 - 320) / 2)⟩⟩, ?_, ?_⟩
  · unfold t2_reconstruction
    rw [preEq, mbind_ok]
    simp only [applyRows]
    show (mbind (applyLoop ks _ (zerosLike5 ks)) _).2 = _
    rw [show (List.zip [0, 1, 2] (List.zip [(1, eA), (2, eB), (1, eA)]
      [(1, dA), (2, dB), (1, dA)]) : List (ApplyRow W)) =
      [(0, (1, eA), (1, dA)), (1, (2, eB), (2, dB)), (2, (1, eA), (1, dA))] from rfl]
    rw [applyEq, mbind_ok]
    show (mbind (liftE (reconLoop hdr post2 ks.d0 (imBuffer ks))) _).2 = _
    rw [reconEq]
    rw [show liftE (Except.ok im2) = (([] : List Ev), Except.ok im2) from rfl, mbind_ok]
    simp [mbind, mret, liftE, cropEq]
  · intro s r c
    exact hmeanz s _ _

theorem claim_C7_zero_input_witness :
    ∃ d, (t2_reconstruction idFactory (zeroKS 3 1 1 320 320) (zeroCalib 1 1 320 5)
        ⟨320, 320⟩).2 = Except.ok d
      ∧ ∀ s r c, d.reconstruction_rss.data s r c = 0 :=
  claim_C7_zero_input idFactory (zeroKS 3 1 1 320 320) (zeroCalib 1 1 320 5)
    ⟨320, 320⟩ (fun _ _ _ _ _ => rfl) rfl (by decide) (by decide) rfl rfl
    (by decide) (by decide) (fun _ _ => ⟨(), rfl⟩) (fun _ _ _ _ => rfl)

theorem mem_mbind_liftE {α β : Type} {e : Ev} (x : Except RErr α) (f : α → M β)
    (h : e ∈ (mbind (liftE x) f).1) : ∃ a, x = Except.ok a ∧ e ∈ (f a).1 := by
  rcases mem_mbind (liftE x) f h with h1 | ⟨a, ha, h2⟩
  · exact absurd h1 (by simp [liftE])
  · exact ⟨a, ha, h2⟩

theorem mem_mbind_emit {β : Type} {e : Ev} (ev : Ev) (f : Unit → M β)
    (h : e ∈ (mbind (emitEv ev) f).1) : e = ev ∨ e ∈ (f ()).1 := by
  rcases mem_mbind (emitEv ev) f h with h1 | ⟨a, _, h2⟩
  · simp [emitEv] at h1
    exact Or.inl h1
  · exact Or.inr (by cases a; exact h2)

theorem mem_mbind_mret {α β : Type} {e : Ev} (a : α) (f : α → M β)
    (h : e ∈ (mbind (mret a) f).1) : e ∈ (f a).1 := by
  rcases mem_mbind (mret a) f h with h1 | ⟨b, hb, h2⟩
  · exact absurd h1 (by simp [mret])
  · have hb3 : a = b := by injection hb
    subst hb3
    exact h2

/-- Every event recorded by the weight-computation loop, on any
outcome, is a computation event (never an application event). -/
theorem computeLoop_trace_no_apply {W : Type} (eA eB : Engine W) (calib : Arr4C)
    (n : Nat) : ∀ e ∈ (computeLoop eA eB calib n).1, e.isApply = false := by
  induction n with
  | zero => intro e he; exact absurd he (List.not_mem_nil e)
  | succ n ih =>
    intro e he
    rcases mem_mbind (computeLoop eA eB calib n) _ he with h1 | ⟨d, _, h2⟩
    · exact ih e h1
    · obtain ⟨cal, _, h3⟩ := mem_mbind_liftE _ _ h2
      rcases mem_mbind_emit _ _ h3 with h4 | h4
      · rw [h4]; rfl
      obtain ⟨wA, _, h5⟩ := mem_mbind_liftE _ _ h4
      rcases mem_mbind_emit _ _ h5 with h6 | h6
      · rw [h6]; rfl
      obtain ⟨wB, _, h7⟩ := mem_mbind_liftE _ _ h6
      exact absurd h7 (by simp [mret])

/-- Every event recorded by the inner weight-application loop, on any
outcome, is one of this average's application events. -/
theorem applySlicesLoop_trace_applies {W : Type} (ks : Arr5C) (eng : Nat × Engine W)
    (dict : Nat × WDict W) (avg : Nat) (n : Nat) (post : Arr5C) :
    ∀ e ∈ (applySlicesLoop ks eng dict avg n post).1,
      ∃ s, e = Ev.applyW eng.1 dict.1 avg s := by
  induction n with
  | zero => intro e he; exact absurd he (List.not_mem_nil e)
  | succ n ih =>
    intro e he
    rcases mem_mbind (applySlicesLoop ks eng dict avg n post) _ he with h1 | ⟨p1, _, h2⟩
    · exact ih e h1
    · obtain ⟨sl, _, h3⟩ := mem_mbind_liftE _ _ h2
      obtain ⟨w, _, h4⟩ := mem_mbind_liftE _ _ h3
      rcases mem_mbind_emit _ _ h4 with h5 | h5
      · exact ⟨n, h5⟩
      obtain ⟨res, _, h6⟩ := mem_mbind_liftE _ _ h5
      exact absurd h6 (by simp [liftE])

/-- Every event recorded by the outer weight-application loop, on any
outcome, is an application event (never a computation event). -/
theorem applyLoop_trace_no_compute {W : Type} (ks : Arr5C) (L : List (ApplyRow W))
    (post : Arr5C) :
    ∀ e ∈ (applyLoop ks L post).1, e.isCompute = false := by
  induction L generalizing post with
  | nil => intro e he; exact absurd he (List.not_mem_nil e)
  | cons row rest ih =>
    intro e he
    rcases mem_mbind (applySlicesLoop ks row.2.1 row.2.2 row.1 ks.d1 post) _ he
      with h1 | ⟨p1, _, h2⟩
    · obtain ⟨s, hs⟩ := applySlicesLoop_trace_applies ks row.2.1 row.2.2 row.1
        ks.d1 post e h1
      rw [hs]; rfl
    · exact ih p1 e h2

/-- Every event recorded by the initialization-and-calibration phase,
on any outcome, is an initialization or computation event (never an
application event). -/
theorem t2_reconstruction_pre_trace_no_apply {W : Type} (G : GrappaFactory W)
    (ks : Arr5C) (calib : Arr4C) :
    ∀ e ∈ (t2_reconstruction_pre G ks calib).1, e.isApply = false := by
  intro e he
  obtain ⟨ks00, _, h1⟩ := mem_mbind_liftE _ _ he
  rcases mem_mbind_emit _ _ h1 with h2 | h2
  · rw [h2]; rfl
  have h3 := mem_mbind_mret _ _ h2
  obtain ⟨ks10, _, h4⟩ := mem_mbind_liftE _ _ h3
  rcases mem_mbind_emit _ _ h4 with h5 | h5
  · rw [h5]; rfl
  have h6 := mem_mbind_mret _ _ h5
  rcases mem_mbind (computeLoop _ _ calib ks.d1) _ h6 with h7 | ⟨d, _, h8⟩
  · exact computeLoop_trace_no_apply _ _ calib ks.d1 e h7
  · exact absurd h8 (by simp [mret])

/-- The reconstruction tail of the pipeline (padding, coil
combination, averaging, cropping) records no event. -/
theorem t2_tail_trace_empty (hdr : Hdr) (ks : Arr5C) (post : Arr5C) :
    ∀ e : Ev, e ∈ (mbind (liftE (reconLoop hdr post ks.d0 (imBuffer ks)))
      (fun im => mbind (mret (meanAxis0 im)) (fun im3 =>
        mbind (liftE (center_crop_im im3 320 320)) (fun cropped =>
          (mret ⟨cropped⟩ : M ImgDict))))).1 → False := by
  intro e he
  obtain ⟨im, _, h1⟩ := mem_mbind_liftE _ _ he
  have h2 := mem_mbind_mret _ _ h1
  obtain ⟨cr, _, h3⟩ := mem_mbind_liftE _ _ h2
  simp [mret] at h3

/-- Claim C8: in t2_reconstruction, every weight-computation call (for
all slices, via both engines) completes before any weight application
is made: the trace splits into an application-free prefix and a
computation-free suffix.  In particular, when the calibration phase
fails (as with a `CalibrationInsufficientError` raised while computing
weights), no application event appears in the trace at all. -/
theorem claim_C8_weights_before_apply {W : Type} (G : GrappaFactory W)
    (ks : Arr5C) (calib : Arr4C) (hdr : Hdr) :
    (∃ A B, (t2_reconstruction G ks calib hdr).1 = A ++ B
      ∧ (∀ e ∈ A, e.isApply = false) ∧ (∀ e ∈ B, e.isCompute = false))
    ∧ ((t2_reconstruction_pre G ks calib).2 = Except.error RErr.calibrationInsufficient →
        ∀ e ∈ (t2_reconstruction G ks calib hdr).1, e.isApply = false) := by
  have hpre := t2_reconstruction_pre_trace_no_apply G ks calib
  rcases hp : t2_reconstruction_pre G ks calib with ⟨tp, rp⟩
  rw [hp] at hpre
  constructor
  · cases rp with
    | error e0 =>
      refine ⟨tp, [], ?_, hpre, ?_⟩
      · unfold t2_reconstruction
        rw [hp, mbind_err]
        simp
      · intro e he
        exact absurd he (List.not_mem_nil e)
    | ok a =>
      unfold t2_reconstruction
      rw [hp, mbind_ok]
      refine ⟨tp, _, rfl, hpre, ?_⟩
      intro e he
      rcases mem_mbind _ _ he with h1 | ⟨post, _, h2⟩
      · exact applyLoop_trace_no_compute ks _ _ e h1
      · exact absurd h2 (fun h2 => t2_tail_trace_empty hdr ks post e h2)
  · intro hcal e he
    cases rp with
    | error e0 =>
      unfold t2_reconstruction at he
      rw [hp, mbind_err] at he
      exact hpre e he
    | ok a =>
      exact absurd hcal (by simp)

theorem claim_C8_weights_before_apply_witness :
    (t2_reconstruction_pre failFactory (zeroKS 3 1 1 4 4) (zeroCalib 1 1 4 4)).2
        = Except.error RErr.calibrationInsufficient
    ∧ (∀ e ∈ (t2_reconstruction failFactory (zeroKS 3 1 1 4 4) (zeroCalib 1 1 4 4)
        ⟨4, 4⟩).1, e.isApply = false) :=
  ⟨rfl, (claim_C8_weights_before_apply failFactory (zeroKS 3 1 1 4 4)
    (zeroCalib 1 1 4 4) ⟨4, 4⟩).2 rfl⟩

theorem mbind_trace_sub1 {α β : Type} (x : M α) (f : α → M β) {e : Ev}
    (h : e ∈ x.1) : e ∈ (mbind x f).1 := by
  obtain ⟨t, r⟩ := x
  cases r with
  | error er => exact h
  | ok a => exact List.mem_append.mpr (Or.inl h)

theorem mbind_trace_sub2 {α β : Type} (x : M α) (f : α → M β) {a : α} {e : Ev}
    (hx : x.2 = Except.ok a) (h : e ∈ (f a).1) : e ∈ (mbind x f).1 := by
  obtain ⟨t, r⟩ := x
  cases r with
  | error er => exact absurd hx (by simp)
  | ok b =>
    have hb : b = a := by injection hx
    subst hb
    exact List.mem_append.mpr (Or.inr h)

/-- Every event recorded by the outer weight-application loop comes
from one of its rows, carrying that row's engine identifier, weight
dictionary identifier and average index. -/
theorem applyLoop_trace_rows {W : Type} (ks : Arr5C) (L : List (ApplyRow W))
    (post : Arr5C) :
    ∀ e ∈ (applyLoop ks L post).1,
      ∃ row ∈ L, ∃ s, e = Ev.applyW row.2.1.1 row.2.2.1 row.1 s := by
  induction L generalizing post with
  | nil => intro e he; exact absurd he (List.not_mem_nil e)
  | cons row rest ih =>
    intro e he
    rcases mem_mbind (applySlicesLoop ks row.2.1 row.2.2 row.1 ks.d1 post) _ he
      with h1 | ⟨p1, _, h2⟩
    · obtain ⟨s, hs⟩ := applySlicesLoop_trace_applies ks row.2.1 row.2.2 row.1
        ks.d1 post e h1
      exact ⟨row, List.mem_cons_self row rest, s, hs⟩
    · obtain ⟨r, hr, s, hs⟩ := ih p1 e h2
      exact ⟨r, List.mem_cons_of_mem row hr, s, hs⟩

/-- Claim C1: in the weight-application phase of t2_reconstruction,
every application event pairs average 0 with engine 1 and weight
dictionary 1 (engineA, built from average 0, slice 0, and the weights
computed through it), average 1 with engine 2 and dictionary 2
(engineB), and average 2 again with engine 1 and dictionary 1 — the
shadowed loop names cannot change the pairing because the zipped lists
are evaluated before iteration; and on a successful calibration phase,
every slice receives exactly these three pairings. -/
theorem claim_C1_engine_weight_pairing {W : Type} (G : GrappaFactory W)
    (ks : Arr5C) (calib : Arr4C) (hdr : Hdr)
    (hna : ks.d0 = 3) (hns : 1 ≤ ks.d1) (hcal : ks.d1 ≤ calib.d0)
    (hcompute : ∀ ref c, ∃ w, (G.make ref).compute_weights c = Except.ok w)
    (happly : ∀ ref c w, ∃ out, (G.make ref).apply_weights c w = Except.ok out ∧
      out.d0 = c.d0 ∧ out.d1 = c.d1 ∧ out.d2 = c.d2) :
    (∀ e ∈ (t2_reconstruction G ks calib hdr).1, ∀ eng dict avg s,
      e = Ev.applyW eng dict avg s →
        (avg = 0 ∧ eng = 1 ∧ dict = 1) ∨ (avg = 1 ∧ eng = 2 ∧ dict = 2)
          ∨ (avg = 2 ∧ eng = 1 ∧ dict = 1))
    ∧ (∀ s, s < ks.d1 →
        Ev.applyW 1 1 0 s ∈ (t2_reconstruction G ks calib hdr).1
        ∧ Ev.applyW 2 2 1 s ∈ (t2_reconstruction G ks calib hdr).1
        ∧ Ev.applyW 1 1 2 s ∈ (t2_reconstruction G ks calib hdr).1) := by
  obtain ⟨tr1, dA, dB, preEq, hcov, _⟩ :=
    t2_reconstruction_pre_ok G ks calib (by omega) hns hcal hcompute
  set eA := G.make (transpose201 ⟨ks.d2, ks.d3, ks.d4,
    fun c r p => ks.data 0 0 c r p⟩) with heA
  set eB := G.make (transpose201 ⟨ks.d2, ks.d3, ks.d4,
    fun c r p => ks.data 1 0 c r p⟩) with heB
  have hrows : ∀ row ∈ ([(0, (1, eA), (1, dA)), (1, (2, eB), (2, dB)),
      (2, (1, eA), (1, dA))] : List (ApplyRow W)), row.1 < ks.d0
      ∧ (∀ s, s < ks.d1 → (row.2.2.2 s).isSome)
      ∧ (∀ c w, ∃ out, row.2.1.2.apply_weights c w = Except.ok out ∧
          out.d0 = c.d0 ∧ out.d1 = c.d1 ∧ out.d2 = c.d2) := by
    intro row hrow
    rcases List.mem_cons.mp hrow with h | hrow
    · subst h
      exact ⟨by omega, fun s hs => (hcov s hs).1, fun c w => happly _ c w⟩
    rcases List.mem_cons.mp hrow with h | hrow
    · subst h
      exact ⟨by omega, fun s hs => (hcov s hs).2, fun c w => happly _ c w⟩
    rcases List.mem_cons.mp hrow with h | hrow
    · subst h
      exact ⟨by omega, fun s hs => (hcov s hs).1, fun c w => happly _ c w⟩
    · exact absurd hrow (List.not_mem_nil row)
  obtain ⟨tr2, post2, applyEq, hdims2, _, hev⟩ :=
    applyLoop_ok ks [(0, (1, eA), (1, dA)), (1, (2, eB), (2, dB)),
      (2, (1, eA), (1, dA))] (zerosLike5 ks) hrows ⟨rfl, rfl, rfl, rfl, rfl⟩
  constructor
  · intro e he eng dict avg s heq
    rcases mem_mbind (t2_reconstruction_pre G ks calib) _ he with h1 | ⟨A, hA, he2⟩
    · have := t2_reconstruction_pre_trace_no_apply G ks calib e h1
      rw [heq] at this
      exact absurd this (by simp [Ev.isApply])
    · rw [preEq] at hA
      have hA2 : (((1, eA), (2, eB), (dA, dB)) :
          (Nat × Engine W) × (Nat × Engine W) × (WDict W × WDict W)) = A := by
        injection hA
      subst hA2
      rcases mem_mbind (applyLoop ks _ (zerosLike5 ks)) _ he2 with h3 | ⟨post3, _, h4⟩
      · obtain ⟨row, hrow, s2, hse⟩ := applyLoop_trace_rows ks _ (zerosLike5 ks) e h3
        rw [heq] at hse
        rcases List.mem_cons.mp hrow with h | hrow
        · subst h
          injection hse with h5 h6 h7 h8
          exact Or.inl ⟨h7, h5, h6⟩
        rcases List.mem_cons.mp hrow with h | hrow
        · subst h
          injection hse with h5 h6 h7 h8
          exact Or.inr (Or.inl ⟨h7, h5, h6⟩)
        rcases List.mem_cons.mp hrow with h | hrow
        · subst h
          injection hse with h5 h6 h7 h8
          exact Or.inr (Or.inr ⟨h7, h5, h6⟩)
        · exact absurd hrow (List.not_mem_nil row)
      · exact absurd h4 (fun h4 => t2_tail_trace_empty hdr ks post3 e h4)
  · intro s hs
    have hpre2 : (t2_reconstruction_pre G ks calib).2 =
        Except.ok ((1, eA), (2, eB), (dA, dB)) := by
      rw [preEq]
    have hmem : ∀ ev : Ev, ev ∈ tr2 →
        ev ∈ (t2_reconstruction G ks calib hdr).1 := by
      intro ev hv
      exact mbind_trace_sub2 _ _ hpre2 (mbind_trace_sub1 _ _ (by
        rw [show (applyLoop ks (applyRows (1, eA) (2, eB) (1, dA) (2, dB))
          (zerosLike5 ks)) = applyLoop ks [(0, (1, eA), (1, dA)),
            (1, (2, eB), (2, dB)), (2, (1, eA), (1, dA))] (zerosLike5 ks) from rfl,
          applyEq]
        exact hv))
    refine ⟨?_, ?_, ?_⟩
    · exact hmem _ (hev (0, (1, eA), (1, dA)) (by simp) s hs)
    · exact hmem _ (hev (1, (2, eB), (2, dB)) (by simp) s hs)
    · exact hmem _ (hev (2, (1, eA), (1, dA)) (by simp) s hs)

theorem claim_C1_engine_weight_pairing_witness :
    (∀ e ∈ (t2_reconstruction idFactory (zeroKS 3 1 1 4 4) (zeroCalib 1 1 4 4)
        ⟨4, 4⟩).1, ∀ eng dict avg s, e = Ev.applyW eng dict avg s →
        (avg = 0 ∧ eng = 1 ∧ dict = 1) ∨ (avg = 1 ∧ eng = 2 ∧ dict = 2)
          ∨ (avg = 2 ∧ eng = 1 ∧ dict = 1))
    ∧ (∀ s, s < (zeroKS 3 1 1 4 4).d1 →
        Ev.applyW 1 1 0 s ∈ (t2_reconstruction idFactory (zeroKS 3 1 1 4 4)
          (zeroCalib 1 1 4 4) ⟨4, 4⟩).1
        ∧ Ev.applyW 2 2 1 s ∈ (t2_reconstruction idFactory (zeroKS 3 1 1 4 4)
          (zeroCalib 1 1 4 4) ⟨4, 4⟩).1
        ∧ Ev.applyW 1 1 2 s ∈ (t2_reconstruction idFactory (zeroKS 3 1 1 4 4)
          (zeroCalib 1 1 4 4) ⟨4, 4⟩).1) :=
  claim_C1_engine_weight_pairing idFactory (zeroKS 3 1 1 4 4) (zeroCalib 1 1 4 4)
    ⟨4, 4⟩ rfl (by decide) (by decide) (fun _ _ => ⟨(), rfl⟩)
    (fun _ c _ => ⟨c, rfl, rfl, rfl, rfl⟩)

/-- The named arrays of one `t2_reconstruction` run, modelled as an
explicit store: the two read-only inputs (`kspace_data`, `calib_data`)
and the buffers the function allocates and mutates
(`grappa_weight_dict`, `grappa_weight_dict_2`,
`kspace_post_grappa_all`, `im`, `img_dict`). -/
structure Store (W : Type) where
  kspace_data : Arr5C
  calib_data : Arr4C
  grappa_weight_dict : WDict W
  grappa_weight_dict_2 : WDict W
  kspace_post_grappa_all : Arr5C
  im : Arr4R
  img_dict : Option ImgDict

/-- Store-passing form of the weight-computation loop: each iteration
reads a calibration slice and writes one entry of each weight
dictionary. -/
noncomputable def computeLoopSt {W : Type} (eA eB : Engine W) :
    Nat → Store W → Store W × Except RErr Unit
  | 0, st => (st, Except.ok ())
  | n + 1, st =>
    match computeLoopSt eA eB n st with
    | (st1, Except.error e) => (st1, Except.error e)
    | (st1, Except.ok _) =>
      match readCalibSlice st1.calib_data n with
      | Except.error e => (st1, Except.error e)
      | Except.ok cal =>
        match eA.compute_weights (transpose201 cal) with
        | Except.error e => (st1, Except.error e)
        | Except.ok wA =>
          let st2 := { st1 with
            grappa_weight_dict := dictSet st1.grappa_weight_dict n wA }
          match eB.compute_weights (transpose201 cal) with
          | Except.error e => (st2, Except.error e)
          | Except.ok wB =>
            ({ st2 with
              grappa_weight_dict_2 := dictSet st2.grappa_weight_dict_2 n wB },
              Except.ok ())

/-- Store-passing form of the inner weight-application loop: each
iteration reads one k-space slice and writes one region of
`kspace_post_grappa_all`. -/
noncomputable def applySlicesLoopSt {W : Type} (eng : Engine W) (dict : WDict W)
    (avg : Nat) : Nat → Store W → Store W × Except RErr Unit
  | 0, st => (st, Except.ok ())
  | n + 1, st =>
    match applySlicesLoopSt eng dict avg n st with
    | (st1, Except.error e) => (st1, Except.error e)
    | (st1, Except.ok _) =>
      match readKSlice st1.kspace_data avg n with
      | Except.error e => (st1, Except.error e)
      | Except.ok sl =>
        match dictGet dict n with
        | Except.error e => (st1, Except.error e)
        | Except.ok w =>
          match eng.apply_weights (transpose201 sl) w with
          | Except.error e => (st1, Except.error e)
          | Except.ok res =>
            match writePost st1.kspace_post_grappa_all avg n (moveaxisBack res) with
            | Except.error e => (st1, Except.error e)
            | Except.ok post2 =>
              ({ st1 with kspace_post_grappa_all := post2 }, Except.ok ())

/-- Store-passing form of the outer weight-application loop. -/
noncomputable def applyLoopSt {W : Type} (ns : Nat) :
    List (Nat × Engine W × WDict W) → Store W → Store W × Except RErr Unit
  | [], st => (st, Except.ok ())
  | row :: rest, st =>
    match applySlicesLoopSt row.2.1 row.2.2 row.1 ns st with
    | (st1, Except.error e) => (st1, Except.error e)
    | (st1, Except.ok _) => applyLoopSt ns rest st1

/-- Store-passing form of the per-average reconstruction loop: each
iteration reads one average of `kspace_post_grappa_all` and writes one
average of `im`. -/
noncomputable def reconLoopSt {W : Type} (hdr : Hdr) :
    Nat → Store W → Store W × Except RErr Unit
  | 0, st => (st, Except.ok ())
  | n + 1, st =>
    match reconLoopSt hdr n st with
    | (st1, Except.error e) => (st1, Except.error e)
    | (st1, Except.ok _) =>
      match readPostAvg st1.kspace_post_grappa_all n with
      | Except.error e => (st1, Except.error e)
      | Except.ok kg =>
        match zero_pad_kspace_hdr hdr kg with
        | Except.error e => (st1, Except.error e)
        | Except.ok padded =>
          match writeIm st1.im n (create_coil_combined_im padded) with
          | Except.error e => (st1, Except.error e)
          | Except.ok im2 => ({ st1 with im := im2 }, Except.ok ())

/-- Store-passing form of t2_reconstruction: the same phases as the
traced model, with every assignment of the source made an explicit
update of the corresponding store field.  Reads of `kspace_data` and
`calib_data` go through the store; no step writes those fields. -/
noncomputable def t2_reconstruction_store {W : Type} (G : GrappaFactory W)
    (hdr : Hdr) (st : Store W) : Store W × Except RErr Unit :=
  match readKSlice st.kspace_data 0 0 with
  | Except.error e => (st, Except.error e)
  | Except.ok ks00 =>
    let engA := G.make (transpose201 ks00)
    match readKSlice st.kspace_data 1 0 with
    | Except.error e => (st, Except.error e)
    | Except.ok ks10 =>
      let engB := G.make (transpose201 ks10)
      match computeLoopSt engA engB st.kspace_data.d1 st with
      | (st1, Except.error e) => (st1, Except.error e)
      | (st1, Except.ok _) =>
        let st2 := { st1 with kspace_post_grappa_all := zerosLike5 st1.kspace_data }
        match applyLoopSt st2.kspace_data.d1
          [(0, engA, st2.grappa_weight_dict), (1, engB, st2.grappa_weight_dict_2),
            (2, engA, st2.grappa_weight_dict)] st2 with
        | (st3, Except.error e) => (st3, Except.error e)
        | (st3, Except.ok _) =>
          let st4 := { st3 with im := imBuffer st3.kspace_data }
          match reconLoopSt hdr st4.kspace_data.d0 st4 with
          | (st5, Except.error e) => (st5, Except.error e)
          | (st5, Except.ok _) =>
            match center_crop_im (meanAxis0 st5.im) 320 320 with
            | Except.error e => (st5, Except.error e)
            | Except.ok cropped =>
              ({ st5 with img_dict := some ⟨cropped⟩ }, Except.ok ())

theorem computeLoopSt_frame {W : Type} (eA eB : Engine W) (n : Nat) (st : Store W) :
    ((computeLoopSt eA eB n st).1).kspace_data = st.kspace_data
    ∧ ((computeLoopSt eA eB n st).1).calib_data = st.calib_data := by
  induction n with
  | zero => exact ⟨rfl, rfl⟩
  | succ n ih =>
    simp only [computeLoopSt]
    rcases h : computeLoopSt eA eB n st with ⟨st1, r⟩
    rw [h] at ih
    cases r with
    | error e => exact ih
    | ok u =>
      dsimp only
      cases readCalibSlice st1.calib_data n with
      | error e => exact ih
      | ok cal =>
        dsimp only
        cases eA.compute_weights (transpose201 cal) with
        | error e => exact ih
        | ok wA =>
          dsimp only
          cases eB.compute_weights (transpose201 cal) with
          | error e => exact ih
          | ok wB => exact ih

theorem applySlicesLoopSt_frame {W : Type} (eng : Engine W) (dict : WDict W)
    (avg : Nat) (n : Nat) (st : Store W) :
    ((applySlicesLoopSt eng dict avg n st).1).kspace_data = st.kspace_data
    ∧ ((applySlicesLoopSt eng dict avg n st).1).calib_data = st.calib_data := by
  induction n with
  | zero => exact ⟨rfl, rfl⟩
  | succ n ih =>
    simp only [applySlicesLoopSt]
    rcases h : applySlicesLoopSt eng dict avg n st with ⟨st1, r⟩
    rw [h] at ih
    cases r with
    | error e => exact ih
    | ok u =>
      dsimp only
      cases readKSlice st1.kspace_data avg n with
      | error e => exact ih
      | ok sl =>
        dsimp only
        cases dictGet dict n with
        | error e => exact ih
        | ok w =>
          dsimp only
          cases eng.apply_weights (transpose201 sl) w with
          | error e => exact ih
          | ok res =>
            dsimp only
            cases writePost st1.kspace_post_grappa_all avg n (moveaxisBack res) with
            | error e => exact ih
            | ok post2 => exact ih

theorem applyLoopSt_frame {W : Type} (ns : Nat) (L : List (Nat × Engine W × WDict W))
    (st : Store W) :
    ((applyLoopSt ns L st).1).kspace_data = st.kspace_data
    ∧ ((applyLoopSt ns L st).1).calib_data = st.calib_data := by
  induction L generalizing st with
  | nil => exact ⟨rfl, rfl⟩
  | cons row rest ih =>
    simp only [applyLoopSt]
    rcases h : applySlicesLoopSt row.2.1 row.2.2 row.1 ns st with ⟨st1, r⟩
    have hf := applySlicesLoopSt_frame row.2.1 row.2.2 row.1 ns st
    rw [h] at hf
    cases r with
    | error e => exact hf
    | ok u =>
      obtain ⟨h1, h2⟩ := ih st1
      exact ⟨h1.trans hf.1, h2.trans hf.2⟩

theorem reconLoopSt_frame {W : Type} (hdr : Hdr) (n : Nat) (st : Store W) :
    ((reconLoopSt hdr n st).1).kspace_data = st.kspace_data
    ∧ ((reconLoopSt hdr n st).1).calib_data = st.calib_data := by
  induction n with
  | zero => exact ⟨rfl, rfl⟩
  | succ n ih =>
    simp only [reconLoopSt]
    rcases h : (reconLoopSt hdr n st : Store W × Except RErr Unit) with ⟨st1, r⟩
    rw [h] at ih
    cases r with
    | error e => exact ih
    | ok u =>
      dsimp only
      cases readPostAvg st1.kspace_post_grappa_all n with
      | error e => exact ih
      | ok kg =>
        dsimp only
        cases zero_pad_kspace_hdr hdr kg with
        | error e => exact ih
        | ok padded =>
          dsimp only
          cases writeIm st1.im n (create_coil_combined_im padded) with
          | error e => exact ih
          | ok im2 => exact ih

/-- Claim C9: t2_reconstruction leaves its inputs unchanged.  In the
store-passing model, where every assignment of the source is an
explicit store update, the `kspace_data` and `calib_data` fields of
the final store equal those of the initial store for every input and
every outcome: all writes go to the freshly allocated
`kspace_post_grappa_all`, `im` and `img_dict` fields. -/
theorem claim_C9_inputs_unchanged {W : Type} (G : GrappaFactory W) (hdr : Hdr)
    (st : Store W) :
    ((t2_reconstruction_store G hdr st).1).kspace_data = st.kspace_data
    ∧ ((t2_reconstruction_store G hdr st).1).calib_data = st.calib_data := by
  unfold t2_reconstruction_store
  split
  · exact ⟨rfl, rfl⟩
  rename_i ks00 _
  try dsimp only
  split
  · exact ⟨rfl, rfl⟩
  rename_i ks10 _
  try dsimp only
  split
  · rename_i st1 e heq
    have hf := computeLoopSt_frame (G.make (transpose201 ks00))
      (G.make (transpose201 ks10)) st.kspace_data.d1 st
    rw [heq] at hf
    exact hf
  rename_i st1 u heq
  have hf1 := computeLoopSt_frame (G.make (transpose201 ks00))
    (G.make (transpose201 ks10)) st.kspace_data.d1 st
  rw [heq] at hf1
  try dsimp only
  split
  · rename_i st3 e heq2
    have hf2 := applyLoopSt_frame
      ({ st1 with kspace_post_grappa_all := zerosLike5 st1.kspace_data } :
        Store W).kspace_data.d1
      [(0, G.make (transpose201 ks00), st1.grappa_weight_dict),
       (1, G.make (transpose201 ks10), st1.grappa_weight_dict_2),
       (2, G.make (transpose201 ks00), st1.grappa_weight_dict)]
      { st1 with kspace_post_grappa_all := zerosLike5 st1.kspace_data }
    rw [heq2] at hf2
    exact ⟨hf2.1.trans hf1.1, hf2.2.trans hf1.2⟩
  rename_i st3 u3 heq2
  have hf2 := applyLoopSt_frame
    ({ st1 with kspace_post_grappa_all := zerosLike5 st1.kspace_data } :
      Store W).kspace_data.d1
    [(0, G.make (transpose201 ks00), st1.grappa_weight_dict),
     (1, G.make (transpose201 ks10), st1.grappa_weight_dict_2),
     (2, G.make (transpose201 ks00), st1.grappa_weight_dict)]
    { st1 with kspace_post_grappa_all := zerosLike5 st1.kspace_data }
  rw [heq2] at hf2
  have hk3 : st3.kspace_data = st.kspace_data := hf2.1.trans hf1.1
  have hc3 : st3.calib_data = st.calib_data := hf2.2.trans hf1.2
  try dsimp only
  split
  · rename_i st5 e heq3
    have hf3 := reconLoopSt_frame hdr
      ({ st3 with im := imBuffer st3.kspace_data } : Store W).kspace_data.d0
      { st3 with im := imBuffer st3.kspace_data }
    rw [heq3] at hf3
    exact ⟨hf3.1.trans hk3, hf3.2.trans hc3⟩
  rename_i st5 u5 heq3
  have hf3 := reconLoopSt_frame hdr
    ({ st3 with im := imBuffer st3.kspace_data } : Store W).kspace_data.d0
    { st3 with im := imBuffer st3.kspace_data }
  rw [heq3] at hf3
  have hk5 : st5.kspace_data = st.kspace_data := hf3.1.trans hk3
  have hc5 : st5.calib_data = st.calib_data := hf3.2.trans hc3
  try dsimp only
  split
  · exact ⟨hk5, hc5⟩
  · exact ⟨hk5, hc5⟩
